import Mathlib

/-!
# Docs as Code: interactive page controller

A shallow embedding of `src/script.js` (class `DocsAsCodeSystem` and the global
`showWorkflow` / `showAIWorkflow` functions) and theorems about it.

The document is a list of elements in tree order.  Elements are never moved
and new ones are only ever appended to `document.body`, so the position of an
element in that list is its identity: a JavaScript reference to an element is
a `Nat` index into the list.
-/

namespace DocsAsCode

/-! ## Level details (`getLevelDetails`) -/

/-- One entry of the `examples` array of a level record. -/
structure LevelExample where
  title : String
  description : String
deriving DecidableEq, Repr

/-- A record of the `levelData` table: `title`, `description`, `examples`. -/
structure LevelDetail where
  title : String
  description : String
  examples : List LevelExample
deriving DecidableEq, Repr

/-- The object literal `levelData` of `getLevelDetails`, keyed by its integer
keys 12, 11, ..., 1 as written in the source; `none` is JavaScript `undefined`
(no own property). -/
def levelData : Int → Option LevelDetail
  | 12 => some
      { title := "Paradigms"
        description := "The deepest level of change - fundamental beliefs and assumptions about how documentation should work."
        examples :=
          [ { title := "Old Paradigm"
              description := "Documentation is an afterthought, created separately from development" },
            { title := "New Paradigm"
              description := "Documentation is a first-class citizen, integrated into the development process" } ] }
  | 11 => some
      { title := "Goals"
        description := "The purpose and objectives that drive the documentation system."
        examples :=
          [ { title := "Primary Goal"
              description := "Create maintainable, collaborative, and automated documentation" },
            { title := "Supporting Goals"
              description := "Version control, automated testing, continuous integration" } ] }
  | 10 => some
      { title := "Self-Organization"
        description := "How the system evolves and adapts without external control."
        examples :=
          [ { title := "Community Contribution"
              description := "Documentation improves through collaborative input" },
            { title := "Emergent Behavior"
              description := "New patterns emerge from collective action" } ] }
  | 9 => some
      { title := "System Rules"
        description := "Governance policies and constraints that shape behavior."
        examples :=
          [ { title := "Pull Request Policy"
              description := "All changes require peer review" },
            { title := "Format Standards"
              description := "Plain text formats only for portability" } ] }
  | 8 => some
      { title := "Information Flows"
        description := "How information moves through the system."
        examples :=
          [ { title := "Code to Docs"
              description := "Changes in code trigger documentation updates" },
            { title := "Feedback Loop"
              description := "User feedback informs documentation improvements" } ] }
  | 7 => some
      { title := "Feedback Loops"
        description := "Reinforcing and balancing mechanisms that drive system behavior."
        examples :=
          [ { title := "Reinforcing Loop"
              description := "Better docs attract more contributors" },
            { title := "Balancing Loop"
              description := "Complexity drives automation efforts" } ] }
  | 6 => some
      { title := "Structure"
        description := "Physical and organizational arrangement of system components."
        examples :=
          [ { title := "Repository Structure"
              description := "Organized file hierarchy and naming conventions" },
            { title := "Build Pipeline"
              description := "Automated processes for testing and deployment" } ] }
  | 5 => some
      { title := "Delays"
        description := "Time lags in system responses and processes."
        examples :=
          [ { title := "Review Process"
              description := "Time between submission and approval" },
            { title := "Learning Curve"
              description := "Time for new contributors to become productive" } ] }
  | 4 => some
      { title := "Stocks & Flows"
        description := "What accumulates in the system and what flows through it."
        examples :=
          [ { title := "Stocks"
              description := "Documentation content, community knowledge, tool expertise" },
            { title := "Flows"
              description := "Content creation rate, review throughput, deployment frequency" } ] }
  | 3 => some
      { title := "Driving Forces"
        description := "External influences that shape system behavior."
        examples :=
          [ { title := "Positive Forces"
              description := "Developer productivity needs, quality standards" },
            { title := "Negative Forces"
              description := "Technical complexity, resource constraints" } ] }
  | 2 => some
      { title := "System Behavior"
        description := "Observable patterns and trends over time."
        examples :=
          [ { title := "Growth Pattern"
              description := "Exponential growth in contributors" },
            { title := "Cyclical Pattern"
              description := "Regular review and update cycles" } ] }
  | 1 => some
      { title := "Events"
        description := "Specific incidents and observable occurrences."
        examples :=
          [ { title := "Pull Request"
              description := "Documentation change submitted for review" },
            { title := "Deployment"
              description := "Updated documentation goes live" } ] }
  | _ => none

/-- The literal on the right of `||` in `getLevelDetails`. -/
def unknownLevel : LevelDetail :=
  { title := "Unknown", description := "No details available", examples := [] }

/-- The names every object literal inherits from `Object.prototype`; indexing
an object literal with one of them yields a (truthy) inherited member, not
`undefined`. -/
def objectPrototypeKeys : List String :=
  ["constructor", "__defineGetter__", "__defineSetter__", "hasOwnProperty",
   "__lookupGetter__", "__lookupSetter__", "isPrototypeOf", "propertyIsEnumerable",
   "toString", "valueOf", "__proto__", "toLocaleString"]

/-- The argument of `getLevelDetails`: an integer-valued number, or a string
(the click path passes the `data-level` attribute text). -/
inductive LevelKey where
  | num (n : Int)
  | str (s : String)
deriving DecidableEq, Repr

/-- The integer key of `levelData` whose property name is the string `s`: a
string hits the entry written with key `k` exactly when it is the canonical
decimal text of `k`. -/
def ownKeyOfString : String → Option Int
  | "1" => some 1
  | "2" => some 2
  | "3" => some 3
  | "4" => some 4
  | "5" => some 5
  | "6" => some 6
  | "7" => some 7
  | "8" => some 8
  | "9" => some 9
  | "10" => some 10
  | "11" => some 11
  | "12" => some 12
  | _ => none

/-- What `getLevelDetails` returns: a level record, or (for a string key that
names a member of `Object.prototype`) that inherited member. -/
inductive LevelValue where
  | record (d : LevelDetail)
  | inherited (name : String)
deriving DecidableEq, Repr

/-- The method `getLevelDetails(level)`: `levelData[level] || { title: 'Unknown', ... }`.
A number key selects the entry written with that integer; a string key selects
the entry whose property name it is, else an inherited member, else nothing. -/
def getLevelDetails : LevelKey → LevelValue
  | .num n =>
      match levelData n with
      | some d => .record d
      | none => .record unknownLevel
  | .str s =>
      match (ownKeyOfString s).bind levelData with
      | some d => .record d
      | none => if s ∈ objectPrototypeKeys then .inherited s else .record unknownLevel

/-! ## Modal content registry (`getModalContent`) -/

/-- A value stored in, or inherited by, the object literal `content` of
`getModalContent`.  The markup literals are authored constants that no
operation inspects, so an own entry is identified by its key. -/
inductive ModalContent where
  | markup (key : String)
  | inherited (name : String)
deriving DecidableEq, Repr

/-- The six own keys of the object literal `content`. -/
def modalContentKeys : List String :=
  ["assessment-modal", "paradigm-modal", "rules-modal", "flows-modal", "tools-modal",
   "monitoring-modal"]

/-- The method `getModalContent(modalId)`: `content[modalId]`; `none` is `undefined`. -/
def getModalContent (modalId : String) : Option ModalContent :=
  if modalId ∈ modalContentKeys then some (.markup modalId)
  else if modalId ∈ objectPrototypeKeys then some (.inherited modalId)
  else none

/-- The `id` attributes occurring inside a content value once it is parsed as
`innerHTML`, in markup order: the six checkboxes of the assessment checklist.
No other registry markup carries an `id`, and none carries the classes
`tab-btn`, `workflow-content` or `system-card`. -/
def markupIds : ModalContent → List String
  | .markup "assessment-modal" =>
      ["current-docs", "stakeholders", "pain-points", "tools-audit", "feedback-loops",
       "goals-alignment"]
  | _ => []

/-! ## Document and controller state -/

/-- What `showLevelDetails` writes into the details panel: the heading
"Level <level>: <title>", the description, and one item per example, in the
order of the `examples` array. -/
structure DetailsView where
  /-- The text interpolated for `level` in the heading. -/
  levelText : String
  title : String
  description : String
  examples : List LevelExample
deriving DecidableEq, Repr

/-- A DOM element, with the attributes and style properties the script reads
or writes.  The page body and the document root are not themselves among the
elements of the model. -/
structure Element where
  /-- The `id` attribute; the empty string when the element has no id. -/
  id : String := ""
  /-- The element's `classList`. -/
  classes : List String := []
  /-- The inline `style.display`. -/
  display : String := ""
  /-- The inline `style.cursor`. -/
  cursor : String := ""
  /-- The `textContent`; the script reads it on `.tab-btn` elements only. -/
  textContent : String := ""
  /-- The `data-level` attribute (`dataset.level`), `none` when absent. -/
  dataLevel : Option String := none
  /-- Whether the element has an ancestor matching `.ai-workflow-tabs`. -/
  inAIWorkflowTabs : Bool := false
  /-- Whether the element is in the document. -/
  attached : Bool := true
  /-- The registry content `createModal` interpolated into `innerHTML`. -/
  modalContent : Option ModalContent := none
  /-- The parent element; `none` for a child of the page body. -/
  parent : Option Nat := none
  /-- The rendering `showLevelDetails` assigned to `innerHTML`, if any. -/
  details : Option DetailsView := none
deriving DecidableEq, Repr

/-- A callback handed to `setTimeout`.  `addShow el` is
`() => modal.classList.add('show')` with `modal` captured by the closure;
`hideCurrent` is the callback of `closeModal`, which reads `this.currentModal`
when it runs. -/
inductive Callback where
  | addShow (el : Nat)
  | hideCurrent
deriving DecidableEq, Repr

/-- A pending `setTimeout`: its delay in milliseconds and its callback. -/
structure Timer where
  delay : Nat
  callback : Callback
deriving DecidableEq, Repr

/-- An argument object of `window.scrollTo`: `{ top, behavior }`. -/
structure ScrollRequest where
  top : Int
  behavior : String
deriving DecidableEq, Repr

/-- The page: the document's elements in tree order, the fields of the
`DocsAsCodeSystem` instance, `document.body.style.overflow`, and the pending
timers in the order they were scheduled. -/
structure State where
  elems : List Element
  /-- The static node list `this.systemCards`. -/
  systemCards : List Nat := []
  /-- The field `this.currentModal`; `none` is `null`. -/
  currentModal : Option Nat := none
  bodyOverflow : String := ""
  timers : List Timer := []
  /-- The calls of `window.scrollTo` made so far, oldest first. -/
  scrollRequests : List ScrollRequest := []
deriving DecidableEq, Repr

/-- Index of the first element satisfying `p`, in tree order. -/
def firstIndex (p : Element → Bool) : List Element → Option Nat
  | [] => none
  | e :: es => if p e then some 0 else (firstIndex p es).map (· + 1)

/-- Indices of all elements satisfying `p`, in tree order, counted from `start`. -/
def allIndices (p : Element → Bool) : List Element → Nat → List Nat
  | [], _ => []
  | e :: es, start =>
      if p e then start :: allIndices p es (start + 1) else allIndices p es (start + 1)

/-- The call `document.getElementById(id)`: the first element in the document whose id
is `id`; an empty id matches nothing. -/
def getElementById (s : State) (id : String) : Option Nat :=
  if id = "" then none else firstIndex (fun e => e.attached && decide (e.id = id)) s.elems

/-- Apply `f` to the element referenced by `i`. -/
def State.update (s : State) (i : Nat) (f : Element → Element) : State :=
  { s with elems := s.elems.modify f i }

/-- The call `el.classList.contains(c)`. -/
def hasClass (c : String) (e : Element) : Bool := decide (c ∈ e.classes)

/-- The call `el.classList.add(c)`. -/
def addClass (c : String) (e : Element) : Element :=
  if c ∈ e.classes then e else { e with classes := e.classes ++ [c] }

/-- The call `el.classList.remove(c)`. -/
def removeClass (c : String) (e : Element) : Element :=
  { e with classes := e.classes.filter (fun x => decide (x ≠ c)) }

/-- The loop `document.querySelectorAll(sel).forEach(f)` for a selector `sel` that `f`
does not affect. -/
def forEachMatching (sel : Element → Bool) (f : Element → Element) (s : State) : State :=
  { s with elems := s.elems.map fun e => if sel e then f e else e }

/-- The state the constructor leaves behind on a document with elements
`elems`: `currentModal = null`, `systemCards` the `.system-card` elements. -/
def initialState (elems : List Element) : State :=
  { elems := elems
    systemCards := allIndices (fun e => e.attached && hasClass "system-card" e) elems 0 }

/-! ## Modal lifecycle (`openModal`, `closeModal`, `toggleModal`, `createModal`) -/

/-- The method `openModal(modal)`. -/
def openModal (modal : Nat) (s : State) : State :=
  let s1 := s.update modal fun e => { e with display := "block" }
  { s1 with
    currentModal := some modal
    bodyOverflow := "hidden"
    timers := s1.timers ++ [{ delay := 10, callback := .addShow modal }] }

/-- The method `closeModal()`. -/
def closeModal (s : State) : State :=
  match s.currentModal with
  | none => s
  | some m =>
      let s1 := s.update m (removeClass "show")
      { s1 with timers := s1.timers ++ [{ delay := 300, callback := .hideCurrent }] }

/-- The method `createModal(modalId)`: the new `div` is appended to the body, followed in
tree order by the id-bearing elements of its markup, and then opened. -/
def createModal (modalId : String) (s : State) : State :=
  match getModalContent modalId with
  | none => s
  | some c =>
      let modal : Element := { id := modalId, classes := ["modal"], modalContent := some c }
      let inner : List Element :=
        (markupIds c).map fun i => { id := i, parent := some s.elems.length }
      openModal s.elems.length { s with elems := s.elems ++ modal :: inner }

/-- The method `toggleModal(modalId)`. -/
def toggleModal (modalId : String) (s : State) : State :=
  match getElementById s modalId with
  | none => createModal modalId s
  | some modal =>
      if (s.elems[modal]?).map (·.display) = some "block" then closeModal s
      else openModal modal s

/-- The result of running a timer callback: the state it leaves, and whether
it threw (a `TypeError`). -/
structure Fired where
  state : State
  threw : Bool
deriving DecidableEq, Repr

/-- Run a timer callback.  The callback of `closeModal` dereferences
`this.currentModal` in its first statement, so with `currentModal = null` it
throws before changing anything. -/
def runCallback (s : State) : Callback → Fired
  | .addShow el => { state := s.update el (addClass "show"), threw := false }
  | .hideCurrent =>
      match s.currentModal with
      | none => { state := s, threw := true }
      | some m =>
          let s1 := s.update m fun e => { e with display := "none" }
          { state := { s1 with currentModal := none, bodyOverflow := "auto" }, threw := false }

/-- The `i`-th pending timer expires: it leaves the pending list and its
callback runs.  `none` when there is no such timer. -/
def fireTimer (i : Nat) (s : State) : Option Fired :=
  match s.timers[i]? with
  | none => none
  | some t => some (runCallback { s with timers := s.timers.eraseIdx i } t.callback)

/-- The test `modal.style.display === 'block'` of `toggleModal`: the element
referenced by `i` is displayed (OPEN). -/
def isDisplayed (s : State) (i : Nat) : Prop :=
  ∃ e, s.elems[i]? = some e ∧ e.display = "block"

instance (s : State) (i : Nat) : Decidable (isDisplayed s i) :=
  match h : s.elems[i]? with
  | none => isFalse (by rintro ⟨e, he, _⟩; rw [h] at he; cases he)
  | some e =>
      if hd : e.display = "block" then isTrue ⟨e, h, hd⟩
      else isFalse (by rintro ⟨e', he, hd'⟩; rw [h] at he; cases he; exact hd hd')

/-- Whether a property holds of the element a reference resolves to is
decidable. -/
instance decideAtElement (o : Option Element) (P : Element → Prop) [DecidablePred P] :
    Decidable (∃ e, o = some e ∧ P e) :=
  match o with
  | none => isFalse (by rintro ⟨e, he, _⟩; cases he)
  | some a =>
      if h : P a then isTrue ⟨a, rfl, h⟩
      else isFalse (by rintro ⟨e, he, hp⟩; cases he; exact h hp)

/-! ## Workflow tabs (`setupWorkflowTabs`, `showWorkflow`, `showAIWorkflow`) -/

/-- The characters the regular expression class `\s` matches: the ECMAScript
`WhiteSpace` and `LineTerminator` code points. -/
def isJSWhitespace (c : Char) : Bool :=
  let n := c.toNat
  n == 9 || n == 10 || n == 11 || n == 12 || n == 13 || n == 32 || n == 160 ||
  n == 0x1680 || (0x2000 ≤ n && n ≤ 0x200A) || n == 0x2028 || n == 0x2029 ||
  n == 0x202F || n == 0x205F || n == 0x3000 || n == 0xFEFF

/-- The scan behind `.replace(/\s+/g, '-')`: every maximal run of whitespace
is replaced by one hyphen, every other character is copied.  The flag tells
whether the previous character belonged to a run already replaced. -/
def replaceRuns : Bool → List Char → List Char
  | _, [] => []
  | inRun, c :: cs =>
      if isJSWhitespace c then
        if inRun then replaceRuns true cs else '-' :: replaceRuns true cs
      else c :: replaceRuns false cs

/-- The call `str.replace(/\s+/g, '-')` on the characters of `str`. -/
def replaceWhitespaceRuns (cs : List Char) : List Char := replaceRuns false cs

/-- The activation key derived from a tab label:
`textContent.toLowerCase().replace(/\s+/g, '-')`.  The built-in
`String.prototype.toLowerCase` (full Unicode lower-casing) is the parameter
`toLowerCase`. -/
def tabKey (toLowerCase : String → String) (textContent : String) : String :=
  String.mk (replaceWhitespaceRuns (toLowerCase textContent).data)

/-- Lower-casing of ASCII letters; `toLowerCase` agrees with it on ASCII text. -/
def asciiToLowerCase (s : String) : String := String.mk (s.data.map Char.toLower)

/-- A text cut into words and whitespace runs, spelled out again: each pair is
a word and the run that follows it, `last` is the word after the last run. -/
def spellOut : List (List Char × List Char) → List Char → List Char
  | [], last => last
  | (word, run) :: segs, last => word ++ run ++ spellOut segs last

/-- The text of a cut with one hyphen in place of every run. -/
def hyphenated : List (List Char × List Char) → List Char → List Char
  | [], last => last
  | (word, _) :: segs, last => word ++ '-' :: hyphenated segs last

/-- The cut is one into words and maximal runs of whitespace: no word holds
whitespace, every run is non-empty and holds whitespace only, and no two runs
are adjacent (only the word before the first run and the word after the last
may be empty, for a leading and a trailing run). -/
def isRunSplit (segs : List (List Char × List Char)) (last : List Char) : Prop :=
  (∀ p ∈ segs, (∀ c ∈ p.1, isJSWhitespace c = false) ∧ p.2 ≠ [] ∧
    ∀ c ∈ p.2, isJSWhitespace c = true) ∧
  (∀ p ∈ segs.tail, p.1 ≠ []) ∧
  (∀ c ∈ last, isJSWhitespace c = false)

instance (segs : List (List Char × List Char)) (last : List Char) :
    Decidable (isRunSplit segs last) :=
  inferInstanceAs (Decidable (
    (∀ p ∈ segs, (∀ c ∈ p.1, isJSWhitespace c = false) ∧ p.2 ≠ [] ∧
      ∀ c ∈ p.2, isJSWhitespace c = true) ∧
    (∀ p ∈ segs.tail, p.1 ≠ []) ∧
    (∀ c ∈ last, isJSWhitespace c = false)))

/-- The cut of a text into its words and maximal whitespace runs. -/
def splitRuns : List Char → List (List Char × List Char) × List Char
  | [] => ([], [])
  | c :: cs =>
      match splitRuns cs with
      | ([], last) => if isJSWhitespace c then ([([], [c])], last) else ([], c :: last)
      | ((word, run) :: segs, last) =>
          if isJSWhitespace c then
            if word.isEmpty then (([], c :: run) :: segs, last)
            else (([], [c]) :: (word, run) :: segs, last)
          else ((c :: word, run) :: segs, last)

/-- The derivation as the specification words it: only the *internal* runs of
whitespace (those with a non-whitespace character on either side) collapse to
a hyphen; leading and trailing whitespace, like every other character, is
left unchanged. -/
def collapseInternalRuns (cs : List Char) : List Char :=
  let leading := cs.takeWhile isJSWhitespace
  let rest := cs.dropWhile isJSWhitespace
  let trailing := (rest.reverse.takeWhile isJSWhitespace).reverse
  let core := (rest.reverse.dropWhile isJSWhitespace).reverse
  leading ++ hyphenated (splitRuns core).1 (splitRuns core).2 ++ trailing

/-- The activation key as the specification words it. -/
def specTabKey (toLowerCase : String → String) (textContent : String) : String :=
  String.mk (collapseInternalRuns (toLowerCase textContent).data)

/-- The selector `.tab-btn`. -/
def isTabBtn (e : Element) : Bool := e.attached && hasClass "tab-btn" e

/-- The selector `.workflow-content`. -/
def isWorkflowContent (e : Element) : Bool := e.attached && hasClass "workflow-content" e

/-- The selector `.ai-workflow-tabs .tab-btn`. -/
def isAITabBtn (e : Element) : Bool := isTabBtn e && e.inAIWorkflowTabs

/-- The selector `.ai-workflow-tabs .workflow-content`. -/
def isAIWorkflowContent (e : Element) : Bool := isWorkflowContent e && e.inAIWorkflowTabs

/-- The common body of `showWorkflow` and `showAIWorkflow`, which differ only
in the two selectors: clear `active` on the selected tabs and panels, then add
it to the first selected tab whose derived key is `workflowId` and to the
element `getElementById(workflowId)` returns. -/
def activateWorkflow (tabSel panelSel : Element → Bool) (toLowerCase : String → String)
    (workflowId : String) (s : State) : State :=
  let s1 := forEachMatching tabSel (removeClass "active") s
  let s2 := forEachMatching panelSel (removeClass "active") s1
  let targetTab :=
    firstIndex (fun e => tabSel e && decide (tabKey toLowerCase e.textContent = workflowId))
      s2.elems
  let targetContent := getElementById s2 workflowId
  let s3 := match targetTab with
    | some t => s2.update t (addClass "active")
    | none => s2
  match targetContent with
  | some c => s3.update c (addClass "active")
  | none => s3

/-- The global function `showWorkflow(workflowId)`. -/
def showWorkflow (toLowerCase : String → String) (workflowId : String) (s : State) : State :=
  activateWorkflow isTabBtn isWorkflowContent toLowerCase workflowId s

/-- The global function `showAIWorkflow(workflowId)`. -/
def showAIWorkflow (toLowerCase : String → String) (workflowId : String) (s : State) : State :=
  activateWorkflow isAITabBtn isAIWorkflowContent toLowerCase workflowId s

/-- The names `this.<name>` resolves to on a `DocsAsCodeSystem` instance: the
methods of the class body and the fields its methods assign. -/
def instanceMembers : List String :=
  ["constructor", "init", "setupEventListeners", "setupSmoothScrolling", "setupSystemCards",
   "observeCard", "highlightSystemLevel", "showSystemConnections", "hideSystemConnections",
   "showLevelDetails", "getLevelDetails", "setupModals", "setupWorkflowTabs", "toggleModal",
   "createModal", "getModalContent", "openModal", "closeModal", "handleResize",
   "currentModal", "systemCards", "scrollToSection", "modalFunctions", "workflowTabs",
   "workflowContents"]

/-- The click handler `setupWorkflowTabs` attaches to the tab button `tab`:
it derives `targetId` from the label and calls `this.showWorkflow(targetId)`.
`showWorkflow` is a global function, not a member of the instance, so the
call is a call of `undefined` and throws a `TypeError`. -/
def tabClick (toLowerCase : String → String) (tab : Nat) (s : State) : Fired :=
  match s.elems[tab]? with
  | none => { state := s, threw := false }
  | some e =>
      let targetId := tabKey toLowerCase e.textContent
      if "showWorkflow" ∈ instanceMembers ∨ "showWorkflow" ∈ objectPrototypeKeys then
        { state := showWorkflow toLowerCase targetId s, threw := false }
      else { state := s, threw := true }

/-- The element referenced by `i` carries the class `c`. -/
def carries (c : String) (s : State) (i : Nat) : Prop :=
  ∃ e, s.elems[i]? = some e ∧ c ∈ e.classes

/-- The element referenced by `i` is matched by the selector `sel`. -/
def matchedBy (sel : Element → Bool) (s : State) (i : Nat) : Prop :=
  ∃ e, s.elems[i]? = some e ∧ sel e = true

instance (c : String) (s : State) (i : Nat) : Decidable (carries c s i) :=
  inferInstanceAs (Decidable (∃ e, s.elems[i]? = some e ∧ c ∈ e.classes))

instance (sel : Element → Bool) (s : State) (i : Nat) : Decidable (matchedBy sel s i) :=
  inferInstanceAs (Decidable (∃ e, s.elems[i]? = some e ∧ sel e = true))

/-- The element has the ID `k`: its `id` attribute is `k`, and `k` is not
empty (an empty `id` attribute gives an element no ID). -/
def hasId (k : String) (e : Element) : Prop := k ≠ "" ∧ e.id = k

instance (k : String) (e : Element) : Decidable (hasId k e) :=
  inferInstanceAs (Decidable (k ≠ "" ∧ e.id = k))

/-- The ids of the document are unique: no two elements in the document have
the same non-empty `id` attribute. -/
def uniqueIds (s : State) : Prop :=
  s.elems.Pairwise fun a b =>
    a.attached = true → b.attached = true → a.id ≠ "" → a.id ≠ b.id

instance (s : State) : Decidable (uniqueIds s) :=
  inferInstanceAs (Decidable (s.elems.Pairwise fun (a b : Element) =>
    a.attached = true → b.attached = true → a.id ≠ "" → a.id ≠ b.id))

/-- The element referenced by `t` is the first tab button, in tree order,
whose derived key is `k`: the one `Array.prototype.find` returns. -/
def isFirstTabWithKey (toLowerCase : String → String) (k : String) (s : State) (t : Nat) :
    Prop :=
  (∃ e, s.elems[t]? = some e ∧ isTabBtn e = true ∧ tabKey toLowerCase e.textContent = k) ∧
  ∀ j e, j < t → s.elems[j]? = some e → isTabBtn e = true →
    tabKey toLowerCase e.textContent ≠ k

/-! ## System cards (`showSystemConnections`) -/

/-- A JavaScript number as `parseInt` can return it: `NaN`, an integer-valued
finite double, or an infinity. -/
inductive JSNumber where
  | nan
  | finite (n : Int)
  | infinite (negative : Bool)
deriving DecidableEq, Repr

/-- The value of a character as a digit (`0-9`, `a-z`, `A-Z`), if it is one. -/
def digitValue (c : Char) : Option Nat :=
  let n := c.toNat
  if 48 ≤ n ∧ n ≤ 57 then some (n - 48)
  else if 97 ≤ n ∧ n ≤ 122 then some (n - 87)
  else if 65 ≤ n ∧ n ≤ 90 then some (n - 55)
  else none

/-- Whether `c` is a digit of the given radix. -/
def isRadixDigit (radix : Nat) (c : Char) : Bool :=
  match digitValue c with
  | some d => decide (d < radix)
  | none => false

/-- The integer a list of radix digits denotes. -/
def digitsValue (radix : Nat) (ds : List Char) : Nat :=
  ds.foldl (fun acc c => acc * radix + (digitValue c).getD 0) 0

/-- The double nearest to the natural number `m` (ties to even); `none` when
it is out of range (infinity).  Integers below `2 ^ 53` are exact. -/
def roundToDouble (m : Nat) : Option Nat :=
  if m < 2 ^ 53 then some m
  else
    let e := Nat.log2 m - 52
    let q := m / 2 ^ e
    let r := m % 2 ^ e
    let half := 2 ^ (e - 1)
    let q1 := if half < r ∨ (r = half ∧ q % 2 = 1) then q + 1 else q
    if q1 * 2 ^ e < 2 ^ 1024 then some (q1 * 2 ^ e) else none

/-- The call `parseInt(string)` with no radix argument: skip leading whitespace, take
an optional sign, take a `0x` / `0X` marker (radix 16, else radix 10), then
read the longest run of digits; `NaN` when that run is empty.  The sign of a
zero result is not recorded. -/
def parseInt (input : String) : JSNumber :=
  let s := input.data.dropWhile isJSWhitespace
  let negative := decide (s.head? = some '-')
  let s := if s.head? = some '-' ∨ s.head? = some '+' then s.tail else s
  let hex := decide (s.head? = some '0') &&
    (decide (s.tail.head? = some 'x') || decide (s.tail.head? = some 'X'))
  let radix := if hex then 16 else 10
  let s := if hex then s.drop 2 else s
  let z := s.takeWhile (isRadixDigit radix)
  if z = [] then .nan
  else
    match roundToDouble (digitsValue radix z) with
    | none => .infinite negative
    | some m => .finite (if negative then -(m : Int) else (m : Int))

/-- The character is one of the decimal digits `0` .. `9`, as they occur in
the decimal text of an integer. -/
def isDecimalDigit (c : Char) : Prop := ∃ d, d < 10 ∧ c = Nat.digitChar d

/-- The value of `card.dataset.level` as `parseInt` sees it: an absent
attribute reads as `undefined`, which `parseInt` converts to the string
"undefined". -/
def datasetLevel (s : State) (card : Nat) : String :=
  match (s.elems[card]?).bind (·.dataLevel) with
  | some v => v
  | none => "undefined"

/-- The numeric level of a card: `parseInt(card.dataset.level)`. -/
def levelOf (s : State) (card : Nat) : JSNumber := parseInt (datasetLevel s card)

/-- The test `Math.abs(cardLevel - level) === 1`.  With `NaN` or an infinity
on either side the difference is `NaN` or infinite and the test fails; for
two integer-valued doubles the rounded difference is 1 exactly when the exact
difference is. -/
def isAdjacent (cardLevel level : JSNumber) : Bool :=
  match cardLevel, level with
  | .finite a, .finite b => decide ((a - b).natAbs = 1)
  | _, _ => false

/-- The method `showSystemConnections(card)`. -/
def showSystemConnections (card : Nat) (s : State) : State :=
  let level := levelOf s card
  s.systemCards.foldl
    (fun st c => if isAdjacent (levelOf st c) level then st.update c (addClass "connected") else st)
    s

/-- The method `hideSystemConnections()`. -/
def hideSystemConnections (s : State) : State :=
  s.systemCards.foldl (fun st c => st.update c (removeClass "connected")) s

/-! ## Card clicks and the details panel (`highlightSystemLevel`, `showLevelDetails`) -/

/-- Whether `root` is a proper ancestor of the element `i`, following at most
`fuel` parent links. -/
def hasAncestor (elems : List Element) (root : Nat) : Nat → Nat → Bool
  | 0, _ => false
  | fuel + 1, i =>
      match (elems[i]?).bind (·.parent) with
      | none => false
      | some p => p == root || hasAncestor elems root fuel p

/-- Apply `f i` to the element at position `i`, positions counted from `start`. -/
def mapFrom (f : Nat → Element → Element) : Nat → List Element → List Element
  | _, [] => []
  | start, e :: es => f start e :: mapFrom f (start + 1) es

/-- The element, taken out of the document when `b` holds. -/
def detachIf (b : Bool) (e : Element) : Element :=
  if b then { e with attached := false } else e

/-- All descendants of `root` leave the document (as when `root.innerHTML` is
assigned, or `root` itself is removed). -/
def detachDescendants (root : Nat) (s : State) : State :=
  { s with
    elems := mapFrom (fun i e => detachIf (hasAncestor s.elems root s.elems.length i) e)
      0 s.elems }

/-- The call `el.remove()`: the element and its subtree leave the document. -/
def removeElement (el : Nat) (s : State) : State :=
  (detachDescendants el s).update el fun e => { e with attached := false }

/-- The element `showLevelDetails` creates when the document has no details
panel: a `div` with id `level-details` and class `level-details-panel`. -/
def newDetailsPanel : Element :=
  { id := "level-details", classes := ["level-details-panel"] }

/-- The method `showLevelDetails(level)`; `level` is `none` for `undefined`.
A level that names an inherited member of `levelData` makes
`details.examples.map` a call on `undefined`: the template throws before
`innerHTML` is assigned and before the timer is set. -/
def showLevelDetails (level : Option String) (s : State) : Fired :=
  let levelText := level.getD "undefined"
  let details := getLevelDetails (.str levelText)
  let found := getElementById s "level-details"
  let detailsPanel := found.getD s.elems.length
  let s1 : State :=
    match found with
    | some _ => s
    | none =>
        { s with elems := s.elems ++ [newDetailsPanel] }
  match details with
  | .inherited _ => { state := s1, threw := true }
  | .record d =>
      let s2 := (detachDescendants detailsPanel s1).update detailsPanel fun e =>
        { e with
          details := some
            { levelText := levelText, title := d.title, description := d.description,
              examples := d.examples } }
      { state :=
          { s2 with timers := s2.timers ++ [{ delay := 10, callback := .addShow detailsPanel }] }
        threw := false }

/-- The method `highlightSystemLevel(card)`. -/
def highlightSystemLevel (card : Nat) (s : State) : Fired :=
  let s1 := s.systemCards.foldl (fun st c => st.update c (removeClass "highlighted")) s
  let s2 := s1.update card (addClass "highlighted")
  let level := (s2.elems[card]?).bind (·.dataLevel)
  showLevelDetails level s2

/-- The Close button that `showLevelDetails` renders into the panel:
`onclick="this.parentElement.parentElement.remove()"` removes the panel.  The
button exists only in a panel that holds a rendering. -/
def pressDetailsClose (panel : Nat) (s : State) : State :=
  match (s.elems[panel]?).bind (·.details) with
  | none => s
  | some _ => removeElement panel s

/-- A user action on the cards or on the details panel. -/
inductive DetailsEvent where
  | click (card : Nat)
  | close (panel : Nat)
deriving DecidableEq, Repr

/-- The page after one user action (an error thrown by the click handler is
reported to the console and leaves the page as it then is). -/
def detailsStep (s : State) : DetailsEvent → State
  | .click card => (highlightSystemLevel card s).state
  | .close panel => pressDetailsClose panel s

/-- The page after a sequence of user actions. -/
def runDetails (events : List DetailsEvent) (s : State) : State :=
  events.foldl detailsStep s

/-- The element is a details panel in the document: it has the id
`level-details`. -/
def isDetailsPanel (e : Element) : Bool := e.attached && decide (e.id = "level-details")

/-- The number of details panels the document holds. -/
def detailsPanelCount (s : State) : Nat := s.elems.countP isDetailsPanel

/-! ## Keyboard, resize and scrolling -/

/-- The `keydown` listener of `setupEventListeners`. -/
def keydown (key : String) (s : State) : State :=
  if key = "Escape" ∧ s.currentModal ≠ none then closeModal s else s

/-- The method `handleResize()`, with `window.innerWidth` as parameter. -/
def handleResize (innerWidth : Int) (s : State) : State :=
  let isMobile := decide (innerWidth < 768)
  s.systemCards.foldl
    (fun st card =>
      st.update card fun e => { e with cursor := if isMobile then "pointer" else "default" })
    s

/-- The layout the browser reports when asked: `offsetTop` and `offsetHeight`
of each element, in CSS pixels (integers). -/
structure Layout where
  offsetTop : Nat → Int
  offsetHeight : Nat → Int

/-- The call `document.querySelector('.nav')`. -/
def queryNav (s : State) : Option Nat :=
  firstIndex (fun e => e.attached && hasClass "nav" e) s.elems

/-- The function `this.scrollToSection` assigned by `setupSmoothScrolling`.
Without a `.nav` element `document.querySelector('.nav').offsetHeight` reads a
property of `null` and throws. -/
def scrollToSection (layout : Layout) (sectionId : String) (s : State) : Fired :=
  match getElementById s sectionId with
  | none => { state := s, threw := false }
  | some target =>
      match queryNav s with
      | none => { state := s, threw := true }
      | some nav =>
          let headerHeight := layout.offsetHeight nav
          let targetPosition := layout.offsetTop target - headerHeight - 20
          { state :=
              { s with
                scrollRequests :=
                  s.scrollRequests ++ [{ top := targetPosition, behavior := "smooth" }] }
            threw := false }

/-- The click listener on an anchor whose `href` starts with `#`:
`scrollToSection(href.substring(1))`. -/
def anchorClick (layout : Layout) (href : String) (s : State) : Fired :=
  scrollToSection layout (String.mk (href.data.drop 1)) s

/-! ## Feature demonstrations (`showAIDemo`) -/

/-- A value stored in, or inherited by, the object literal `demos` of
`showAIDemo`.  The panel literals are authored constants that no operation
inspects, so an own entry is identified by its key. -/
inductive DemoContent where
  | panel (key : String)
  | inherited (name : String)
deriving DecidableEq, Repr

/-- The four own keys of the object literal `demos`. -/
def demoKeys : List String :=
  ["content-generation", "intelligent-search", "translation", "quality-analysis"]

/-- The lookup `demos[demoType]` of `showAIDemo`; `none` is `undefined`.  Every
inherited member is an object or a function, hence truthy. -/
def getDemo (demoType : String) : Option DemoContent :=
  if demoType ∈ demoKeys then some (.panel demoType)
  else if demoType ∈ objectPrototypeKeys then some (.inherited demoType)
  else none

/-- The id-bearing elements of a demo panel once
`<h2>${demo.title}</h2>${demo.content}` is parsed as `innerHTML`, in markup
order, each with its id, its classes and its inline `style.display`.  An
inherited member has neither `title` nor `content`: both interpolate as the
text "undefined", which carries no element. -/
def demoElements : DemoContent → List (String × List String × String)
  | .panel "content-generation" => [("generated-output", ["demo-output"], "none")]
  | .panel "intelligent-search" =>
      [("search-input", [], ""), ("search-results", ["search-results"], "none")]
  | .panel "translation" => [("translation-output", ["translation-output"], "none")]
  | .panel "quality-analysis" => [("quality-results", ["quality-results"], "none")]
  | _ => []

/-- The function `showAIDemo(demoType)`: a new `div` of class `modal`, without
an id, is appended to the body, followed in tree order by the id-bearing
elements of its markup; it is displayed at once and a 10 ms timer adds the
class `show`.  Neither `currentModal` nor the body's overflow is written. -/
def showAIDemo (demoType : String) (s : State) : State :=
  match getDemo demoType with
  | none => s
  | some d =>
      let modal : Element := { classes := ["modal"], display := "block" }
      let inner : List Element :=
        (demoElements d).map fun p =>
          { id := p.1, classes := p.2.1, display := p.2.2, parent := some s.elems.length }
      { s with
        elems := s.elems ++ modal :: inner
        timers := s.timers ++ [{ delay := 10, callback := .addShow s.elems.length }] }

/-- The events that act on overlays: a call of `openModal` with an element of
the document, a call of `closeModal`, a call of `toggleModal`, a `keydown`
event, a call of `showAIDemo`, and the expiry of a pending timer. -/
inductive ModalAction where
  | openModal (modal : Nat)
  | closeModal
  | toggleModal (modalId : String)
  | keydown (key : String)
  | showAIDemo (demoType : String)
  | fireTimer (i : Nat)
deriving DecidableEq, Repr

/-- One event.  A reference to an element that does not exist, or to a timer
that is not pending, is no event of the page and leaves the state as it is.  A
callback that throws leaves the state it reached. -/
def modalStep (s : State) : ModalAction → State
  | .openModal modal => if modal < s.elems.length then openModal modal s else s
  | .closeModal => closeModal s
  | .toggleModal modalId => toggleModal modalId s
  | .keydown key => keydown key s
  | .showAIDemo demoType => showAIDemo demoType s
  | .fireTimer i =>
      match fireTimer i s with
      | none => s
      | some f => f.state

/-- The events of a list, oldest first. -/
def runModalActions (actions : List ModalAction) (s : State) : State :=
  actions.foldl modalStep s

/-- The current-instance reference is non-empty exactly when page scroll is
locked, and the current instance, if any, is displayed. -/
def modalInvariant (s : State) : Prop :=
  (s.currentModal ≠ none ↔ s.bodyOverflow = "hidden") ∧
  ∀ m, s.currentModal = some m → isDisplayed s m

instance (s : State) : Decidable (modalInvariant s) :=
  match h : s.currentModal with
  | none =>
      if hb : s.bodyOverflow = "hidden" then isFalse (by
        intro hi
        exact (hi.1.2 hb) h)
      else isTrue ⟨⟨fun hc => absurd h hc, fun hb2 => absurd hb2 hb⟩, by
        intro m hm
        rw [h] at hm
        cases hm⟩
  | some m =>
      if hb : s.bodyOverflow = "hidden" ∧ isDisplayed s m then
        isTrue ⟨⟨fun _ => hb.1, fun _ hc => by rw [h] at hc; cases hc⟩, by
          intro m2 hm
          rw [h] at hm
          cases hm
          exact hb.2⟩
      else isFalse (by
        intro hi
        exact hb ⟨hi.1.1 (by rw [h]; simp), hi.2 m h⟩)

/-! ## Concrete pages used as witnesses -/

/-- The page after `toggleAssessment()` on an empty document: the assessment
modal (element 0, followed by its six checkboxes) is open and current. -/
def assessmentOpen : State := toggleModal "assessment-modal" (initialState [])

/-- The page after `toggleAssessment()` and then `toggleParadigm()`. -/
def stackedModals : State := toggleModal "paradigm-modal" assessmentOpen

/-- The page after the assessment modal was created, closed again, and the
delayed hide and show callbacks ran: the modal exists, nothing is current. -/
def assessmentClosed : State :=
  { elems :=
      { id := "assessment-modal", classes := ["modal", "show"], display := "none",
        modalContent := some (.markup "assessment-modal") } ::
      (markupIds (.markup "assessment-modal")).map fun i => { id := i, parent := some 0 }
    bodyOverflow := "auto" }

/-- A page with a primary workflow group (tabs "Overview" and "Quick Start"
with their panels, "Overview" selected) and an AI workflow group (tab
"Content Generation" with its panel, selected). -/
def workflowPage : State :=
  initialState
    [ { classes := ["tab-btn", "active"], textContent := "Overview" },
      { classes := ["tab-btn"], textContent := "Quick Start" },
      { id := "overview", classes := ["workflow-content", "active"] },
      { id := "quick-start", classes := ["workflow-content"] },
      { classes := ["tab-btn", "active"], textContent := "Content Generation",
        inAIWorkflowTabs := true },
      { id := "content-generation", classes := ["workflow-content", "active"],
        inAIWorkflowTabs := true } ]

/-- A page with five system cards, of levels 2, 3, 4, 5 and 3. -/
def cardsPage : State :=
  initialState
    [ { classes := ["system-card"], dataLevel := some "2" },
      { classes := ["system-card"], dataLevel := some "3" },
      { classes := ["system-card"], dataLevel := some "4" },
      { classes := ["system-card"], dataLevel := some "5" },
      { classes := ["system-card"], dataLevel := some "3" } ]

/-- A page with four system cards whose level attributes are "3abc", "4",
"2nd" and absent. -/
def malformedCardsPage : State :=
  initialState
    [ { classes := ["system-card"], dataLevel := some "3abc" },
      { classes := ["system-card"], dataLevel := some "4" },
      { classes := ["system-card"], dataLevel := some "2nd" },
      { classes := ["system-card"] } ]

/-- A page with a navigation bar (element 0), a section "framework"
(element 1) and a section "tools" (element 2). -/
def navPage : State :=
  initialState
    [ { classes := ["nav"] },
      { id := "framework", classes := ["section"] },
      { id := "tools", classes := ["section"] } ]

/-- A layout for the page with the navigation bar: the bar is 64 pixels high,
the sections start at 700 and 1500 pixels. -/
def navLayout : Layout :=
  { offsetTop := fun i => if i = 1 then 700 else if i = 2 then 1500 else 0
    offsetHeight := fun i => if i = 0 then 64 else 800 }

/-- A session on an empty page: the assessment modal is toggled open, a demo
is shown, two timers expire, Escape is pressed, the modal is toggled again and
the delayed hide runs. -/
def overlaySession : List ModalAction :=
  [.toggleModal "assessment-modal", .showAIDemo "translation", .fireTimer 0,
   .fireTimer 0, .keydown "Escape", .toggleModal "assessment-modal", .fireTimer 0,
   .openModal 7, .toggleModal "translation-output"]

/-- Three system cards whose middle one writes its level with a leading zero. -/
def paddedCardsPage : State :=
  initialState
    [ { classes := ["system-card"], dataLevel := some "2" },
      { classes := ["system-card"], dataLevel := some "03" },
      { classes := ["system-card"], dataLevel := some "4" } ]

/-! ## Theorems -/

theorem levelData_none (n : Int) (h : ¬(1 ≤ n ∧ n ≤ 12)) : levelData n = none := by
  unfold levelData
  split <;> first | rfl | (exfalso; omega)

theorem levelData_some (n : Int) (h : 1 ≤ n ∧ n ≤ 12) :
    ∃ d, levelData n = some d ∧ d.title ≠ "" ∧ 1 ≤ d.examples.length := by
  obtain ⟨h1, h2⟩ := h
  interval_cases n <;> exact ⟨_, rfl, by decide, by decide⟩

/-- C1: for every integer level from 1 to 12 `getLevelDetails` returns a record
with a non-empty title and at least one example; for every other integer it
returns the fallback record "Unknown" / "No details available" / no examples. -/
theorem getLevelDetails_integer (n : Int) :
    (1 ≤ n ∧ n ≤ 12 →
      ∃ d, getLevelDetails (.num n) = .record d ∧ d.title ≠ "" ∧ 1 ≤ d.examples.length) ∧
    (¬(1 ≤ n ∧ n ≤ 12) →
      getLevelDetails (.num n) = .record
        { title := "Unknown", description := "No details available", examples := [] }) := by
  constructor
  · intro h
    obtain ⟨d, hd, ht, he⟩ := levelData_some n h
    exact ⟨d, by simp [getLevelDetails, hd], ht, he⟩
  · intro h
    simp [getLevelDetails, levelData_none n h, unknownLevel]

/-- Witness for C1: level 3 has the record "Driving Forces" with two examples,
and level 13 has the fallback record. -/
theorem getLevelDetails_integer_witness :
    (∃ d, getLevelDetails (.num 3) = .record d ∧ d.title ≠ "" ∧ 1 ≤ d.examples.length) ∧
    getLevelDetails (.num 13) = .record
      { title := "Unknown", description := "No details available", examples := [] } :=
  ⟨(getLevelDetails_integer 3).1 (by decide), (getLevelDetails_integer 13).2 (by decide)⟩

/-! ### Element updates -/

theorem update_elems_getElem? (s : State) (i j : Nat) (f : Element → Element) :
    (s.update i f).elems[j]? = (fun a => if i = j then f a else a) <$> s.elems[j]? := by
  simp [State.update, List.getElem?_modify]

theorem modify_append_length (f : Element → Element) (l : List Element) (m : Element)
    (r : List Element) : (l ++ m :: r).modify f l.length = l ++ f m :: r := by
  induction l with
  | nil => rfl
  | cons a l ih => simp [ih]

theorem getElem?_append_length {α : Type} (l : List α) (m : α) (r : List α) :
    (l ++ m :: r)[l.length]? = some m := by
  induction l with
  | nil => simp
  | cons a l ih => simpa using ih

theorem firstIndex_eq_none {p : Element → Bool} {l : List Element} :
    firstIndex p l = none ↔ ∀ e ∈ l, p e = false := by
  induction l with
  | nil => simp [firstIndex]
  | cons a l ih =>
    by_cases h : p a = true
    · simp [firstIndex, h]
    · simp [firstIndex, h, ih]

theorem firstIndex_append_of_none {p : Element → Bool} {l : List Element}
    (h : firstIndex p l = none) (r : List Element) :
    firstIndex p (l ++ r) = (firstIndex p r).map (· + l.length) := by
  induction l with
  | nil => simp
  | cons a l ih =>
    by_cases ha : p a = true
    · simp [firstIndex, ha] at h
    · have h1 : firstIndex p l = none := by simpa [firstIndex, ha] using h
      simp [firstIndex, ha, ih h1, Function.comp_def, Nat.add_assoc]

theorem firstIndex_some {p : Element → Bool} {l : List Element} {i : Nat}
    (h : firstIndex p l = some i) :
    (∃ e, l[i]? = some e ∧ p e = true) ∧ ∀ j e, j < i → l[j]? = some e → p e = false := by
  induction l generalizing i with
  | nil => simp [firstIndex] at h
  | cons a l ih =>
    by_cases ha : p a = true
    · simp [firstIndex, ha] at h
      subst h
      exact ⟨⟨a, by simp, ha⟩, by intro j e hj; omega⟩
    · simp [firstIndex, ha] at h
      obtain ⟨k, hk, rfl⟩ := h
      obtain ⟨⟨e, he, hpe⟩, hmin⟩ := ih hk
      refine ⟨⟨e, by simpa using he, hpe⟩, ?_⟩
      intro j e' hj hje
      cases j with
      | zero => simp at hje; subst hje; simpa using ha
      | succ j => exact hmin j e' (by omega) (by simpa using hje)

theorem fireTimer_last (s : State) (ts : List Timer) (t : Timer) (h : s.timers = ts ++ [t]) :
    fireTimer (s.timers.length - 1) s =
      some (runCallback { s with timers := ts } t.callback) := by
  simp [fireTimer, h, List.eraseIdx_append_of_length_le]

/-! ### Modal lifecycle -/

theorem getModalContent_ne_empty {id : String} {c : ModalContent}
    (h : getModalContent id = some c) : id ≠ "" := by
  rintro rfl
  have h0 : getModalContent "" = none := by decide
  rw [h0] at h
  cases h

theorem isDisplayed_update_display (s : State) (i : Nat) (h : i < s.elems.length) :
    isDisplayed (s.update i fun e => { e with display := "block" }) i := by
  obtain ⟨e, he⟩ : ∃ e, s.elems[i]? = some e := ⟨s.elems[i], by simp [h]⟩
  exact ⟨{ e with display := "block" }, by simp [update_elems_getElem?, he], rfl⟩

/-- C2 (amended): when a modal A is displayed and a distinct modal B is opened,
B becomes the current instance, is displayed and scroll is locked, while the
node of A is left exactly as it was, so A is still displayed: the overlays do
stack.  Opening B through `toggleModal` on its id does the same, both when the
node of B exists and is not displayed and when it is created by the call. -/
theorem openModal_leaves_prior_displayed (s : State) (A B : Nat) (hAB : A ≠ B)
    (hB : B < s.elems.length) (hA : isDisplayed s A) :
    ((openModal B s).currentModal = some B ∧ isDisplayed (openModal B s) B ∧
      (openModal B s).bodyOverflow = "hidden" ∧
      (openModal B s).elems[A]? = s.elems[A]? ∧ isDisplayed (openModal B s) A) ∧
    (∀ id, getElementById s id = some B → ¬ isDisplayed s B →
      toggleModal id s = openModal B s) ∧
    (∀ id c, getElementById s id = none → getModalContent id = some c →
      (toggleModal id s).currentModal = some s.elems.length ∧
      isDisplayed (toggleModal id s) s.elems.length ∧
      (toggleModal id s).elems[A]? = s.elems[A]? ∧ isDisplayed (toggleModal id s) A) := by
  have hAeq : (openModal B s).elems[A]? = s.elems[A]? := by
    simp [openModal, update_elems_getElem?, Ne.symm hAB]
  refine ⟨⟨rfl, ?_, rfl, hAeq, ?_⟩, ?_, ?_⟩
  · exact isDisplayed_update_display s B hB
  · obtain ⟨e, he, hd⟩ := hA
    exact ⟨e, by rw [hAeq]; exact he, hd⟩
  · intro id hid hnd
    have : ¬ ((s.elems[B]?).map (·.display) = some "block") := by
      intro h
      apply hnd
      obtain ⟨e, he⟩ : ∃ e, s.elems[B]? = some e := ⟨s.elems[B], by simp [hB]⟩
      exact ⟨e, he, by simpa [he] using h⟩
    simp [toggleModal, hid, this]
  · intro id c hid hc
    obtain ⟨e, he, hd⟩ := hA
    have hAlt : A < s.elems.length := by
      by_contra hge
      rw [List.getElem?_eq_none (by omega)] at he
      cases he
    have hne : s.elems.length ≠ A := by omega
    have hAe : (toggleModal id s).elems[A]? = s.elems[A]? := by
      simp [toggleModal, hid, createModal, hc, openModal, update_elems_getElem?, hne,
        List.getElem?_append_left hAlt]
    refine ⟨by simp [toggleModal, hid, createModal, hc, openModal], ?_, hAe, ⟨e, by rw [hAe]; exact he, hd⟩⟩
    simp only [toggleModal, hid, createModal, hc, openModal]
    exact isDisplayed_update_display _ _ (by simp)

/-- Witness for C2 (amended): on the page where the paradigm modal (element 7)
is displayed, opening the assessment modal (element 0). -/
theorem openModal_leaves_prior_displayed_witness :
    (7 : Nat) ≠ 0 ∧ 0 < stackedModals.elems.length ∧ isDisplayed stackedModals 7 ∧
    (openModal 0 stackedModals).currentModal = some 0 ∧
    isDisplayed (openModal 0 stackedModals) 7 :=
  ⟨by decide, by decide, by decide,
    (openModal_leaves_prior_displayed stackedModals 7 0 (by decide) (by decide)
      (by decide)).1.1,
    (openModal_leaves_prior_displayed stackedModals 7 0 (by decide) (by decide)
      (by decide)).1.2.2.2.2⟩

/-- C2 as stated fails: after `toggleModal` on "assessment-modal" that modal
(element 0) is open and current; `toggleModal` on "paradigm-modal" then makes
the paradigm modal (element 7) current and displayed, yet the assessment modal
is still displayed, so two modals are displayed at once. -/
theorem second_modal_stacks :
    assessmentOpen.currentModal = some 0 ∧ isDisplayed assessmentOpen 0 ∧
    getElementById stackedModals "paradigm-modal" = some 7 ∧
    stackedModals.currentModal = some 7 ∧ isDisplayed stackedModals 7 ∧
    isDisplayed stackedModals 0 := by
  decide

theorem toggleModal_create (s : State) (id : String) (c : ModalContent)
    (hnone : getElementById s id = none) (hc : getModalContent id = some c) :
    toggleModal id s =
      { elems := s.elems ++
          { id := id, classes := ["modal"], display := "block", modalContent := some c } ::
            (markupIds c).map fun i => { id := i, parent := some s.elems.length }
        systemCards := s.systemCards
        currentModal := some s.elems.length
        bodyOverflow := "hidden"
        timers := s.timers ++ [{ delay := 10, callback := .addShow s.elems.length }]
        scrollRequests := s.scrollRequests } := by
  simp [toggleModal, hnone, createModal, hc, openModal, State.update, modify_append_length]

/-- C3: for every modal id of the registry for which no DOM node exists yet,
`toggleModal(id)` results in the OPEN state: a node with that id exists
afterwards, made from the registry content of the id; it is displayed, it is
the current instance and page scroll is locked.  The first call neither closes
nor does nothing. -/
theorem toggleModal_first_call_opens (s : State) (id : String)
    (hkey : id ∈ modalContentKeys) (hnone : getElementById s id = none) :
    getElementById (toggleModal id s) id = some s.elems.length ∧
    ((toggleModal id s).elems[s.elems.length]?).bind (·.modalContent) = some (.markup id) ∧
    isDisplayed (toggleModal id s) s.elems.length ∧
    (toggleModal id s).currentModal = some s.elems.length ∧
    (toggleModal id s).bodyOverflow = "hidden" := by
  have hc : getModalContent id = some (.markup id) := by simp [getModalContent, hkey]
  have hid : id ≠ "" := getModalContent_ne_empty hc
  have hfirst : firstIndex (fun e => e.attached && decide (e.id = id)) s.elems = none := by
    simpa [getElementById, hid] using hnone
  rw [toggleModal_create s id _ hnone hc]
  refine ⟨?_, ?_, ?_, rfl, rfl⟩
  · simp only [getElementById, hid, if_false]
    rw [firstIndex_append_of_none hfirst]
    simp [firstIndex]
  · simp only
    rw [getElem?_append_length]
    rfl
  · exact ⟨_, getElem?_append_length _ _ _, rfl⟩

/-- Witness for C3: "assessment-modal" on the empty page, and "paradigm-modal"
while the assessment modal is open. -/
theorem toggleModal_first_call_opens_witness :
    getElementById (initialState []) "assessment-modal" = none ∧
    getElementById (toggleModal "assessment-modal" (initialState [])) "assessment-modal"
      = some 0 ∧
    isDisplayed (toggleModal "assessment-modal" (initialState [])) 0 ∧
    getElementById assessmentOpen "paradigm-modal" = none ∧
    (toggleModal "paradigm-modal" assessmentOpen).currentModal = some 7 ∧
    (toggleModal "paradigm-modal" assessmentOpen).bodyOverflow = "hidden" :=
  ⟨by decide,
    (toggleModal_first_call_opens (initialState []) "assessment-modal" (by decide)
      (by decide)).1,
    (toggleModal_first_call_opens (initialState []) "assessment-modal" (by decide)
      (by decide)).2.2.1,
    by decide,
    (toggleModal_first_call_opens assessmentOpen "paradigm-modal" (by decide)
      (by decide)).2.2.2.1,
    (toggleModal_first_call_opens assessmentOpen "paradigm-modal" (by decide)
      (by decide)).2.2.2.2⟩

/-- An id that is not in the registry: "settings-modal" has no DOM node and no
registry content; `toggleModal` on it changes nothing, so afterwards there is
still no node with that id, nothing is current and scroll is not locked. -/
theorem toggleModal_unknown_id_does_nothing :
    getElementById (initialState []) "settings-modal" = none ∧
    toggleModal "settings-modal" (initialState []) = initialState [] ∧
    getElementById (toggleModal "settings-modal" (initialState [])) "settings-modal" = none ∧
    (toggleModal "settings-modal" (initialState [])).currentModal = none ∧
    (toggleModal "settings-modal" (initialState [])).bodyOverflow ≠ "hidden" := by
  decide

theorem getElementById_lt {s : State} {id : String} {n : Nat}
    (h : getElementById s id = some n) : n < s.elems.length := by
  unfold getElementById at h
  split at h
  · cases h
  · obtain ⟨⟨e, he, _⟩, _⟩ := firstIndex_some h
    by_contra hge
    rw [List.getElem?_eq_none (by omega)] at he
    cases he

theorem isDisplayed_iff_display (s : State) (n : Nat) :
    isDisplayed s n ↔ (s.elems[n]?).map (·.display) = some "block" := by
  constructor
  · rintro ⟨e, he, hd⟩
    simp [he, hd]
  · intro h
    cases he : s.elems[n]? with
    | none => simp [he] at h
    | some e => exact ⟨e, he, by simpa [he] using h⟩

/-- Running the delayed hide while `m` is the current instance. -/
theorem runCallback_hideCurrent (s : State) (m : Nat) (hm : m < s.elems.length)
    (hcur : s.currentModal = some m) :
    (runCallback s .hideCurrent).threw = false ∧
    ((runCallback s .hideCurrent).state.elems[m]?).map (·.display) = some "none" ∧
    (runCallback s .hideCurrent).state.currentModal = none ∧
    (runCallback s .hideCurrent).state.bodyOverflow = "auto" := by
  obtain ⟨e, he⟩ : ∃ e, s.elems[m]? = some e := ⟨s.elems[m], by simp [hm]⟩
  simp [runCallback, hcur, update_elems_getElem?, he]

/-- No timer callback changes the display of an element other than the
current instance. -/
theorem runCallback_keeps_display (s : State) (cb : Callback) (n : Nat)
    (hcur : s.currentModal ≠ some n) :
    ((runCallback s cb).state.elems[n]?).map (·.display) = (s.elems[n]?).map (·.display) := by
  cases cb with
  | addShow el =>
    simp only [runCallback, update_elems_getElem?]
    cases s.elems[n]? with
    | none => rfl
    | some e =>
      by_cases h : el = n
      · simp only [h, if_true, Option.map_eq_map, Option.map_some']
        unfold addClass
        split <;> rfl
      · simp [h]
  | hideCurrent =>
    cases hc : s.currentModal with
    | none => simp [runCallback, hc]
    | some m =>
      have hmn : m ≠ n := by
        rintro rfl
        exact hcur hc
      simp [runCallback, hc, update_elems_getElem?, hmn]

theorem closeModal_display (s : State) (n : Nat) :
    ((closeModal s).elems[n]?).map (·.display) = (s.elems[n]?).map (·.display) := by
  unfold closeModal
  cases s.currentModal with
  | none => rfl
  | some m =>
    simp only [update_elems_getElem?]
    cases s.elems[n]? with
    | none => rfl
    | some e =>
      by_cases h : m = n
      · simp [h, removeClass]
      · simp [h]

theorem closeModal_currentModal (s : State) : (closeModal s).currentModal = s.currentModal := by
  unfold closeModal
  cases h : s.currentModal <;> simp [State.update, h]

theorem closeModal_length (s : State) : (closeModal s).elems.length = s.elems.length := by
  unfold closeModal
  cases h : s.currentModal <;> simp [State.update]

theorem closeModal_timers_of_current (s : State) (m : Nat) (h : s.currentModal = some m) :
    (closeModal s).timers = s.timers ++ [{ delay := 300, callback := .hideCurrent }] := by
  simp [closeModal, h, State.update]

/-- C4 (amended): `toggleModal(id)` on an id whose node `n` exists.  If the
node is displayed and is the current instance, then after the call and the
firing of the delayed hide it is not displayed (and nothing is current, scroll
is unlocked).  If the node is not displayed, the call makes it displayed and
the current instance.  If the node is displayed but is not the current
instance, the call is `closeModal()` on whatever is current and the node
itself stays displayed through the call and the firing of any pending timer. -/
theorem toggleModal_existing_node (s : State) (id : String) (n : Nat)
    (hn : getElementById s id = some n) :
    (isDisplayed s n → s.currentModal = some n →
      ∃ f, fireTimer ((toggleModal id s).timers.length - 1) (toggleModal id s) = some f ∧
        f.threw = false ∧ (f.state.elems[n]?).map (·.display) = some "none" ∧
        ¬ isDisplayed f.state n ∧ f.state.currentModal = none ∧
        f.state.bodyOverflow = "auto") ∧
    (¬ isDisplayed s n →
      toggleModal id s = openModal n s ∧ isDisplayed (toggleModal id s) n ∧
      (toggleModal id s).currentModal = some n) ∧
    (isDisplayed s n → s.currentModal ≠ some n →
      toggleModal id s = closeModal s ∧ isDisplayed (toggleModal id s) n ∧
      ∀ i f, fireTimer i (toggleModal id s) = some f → isDisplayed f.state n) := by
  have hlt : n < s.elems.length := getElementById_lt hn
  have hclose : isDisplayed s n → toggleModal id s = closeModal s := by
    intro hd
    simp [toggleModal, hn, (isDisplayed_iff_display s n).1 hd]
  refine ⟨?_, ?_, ?_⟩
  · intro hd hcur
    rw [hclose hd]
    have ht := closeModal_timers_of_current s n hcur
    refine ⟨_, fireTimer_last _ _ _ ht, ?_⟩
    have hrun := runCallback_hideCurrent { closeModal s with timers := s.timers } n
      (by simpa [closeModal_length] using hlt) (by simpa [closeModal_currentModal] using hcur)
    obtain ⟨h1, h2, h3, h4⟩ := hrun
    refine ⟨h1, h2, ?_, h3, h4⟩
    rw [isDisplayed_iff_display, h2]
    decide
  · intro hnd
    have h1 : toggleModal id s = openModal n s := by
      simp [toggleModal, hn, mt (isDisplayed_iff_display s n).2 hnd]
    rw [h1]
    exact ⟨rfl, isDisplayed_update_display s n hlt, rfl⟩
  · intro hd hcur
    rw [hclose hd]
    refine ⟨rfl, ?_, ?_⟩
    · rw [isDisplayed_iff_display, closeModal_display]
      exact (isDisplayed_iff_display s n).1 hd
    · intro i f hf
      unfold fireTimer at hf
      split at hf
      · cases hf
      · cases hf
        rw [isDisplayed_iff_display, runCallback_keeps_display]
        · exact (closeModal_display s n).trans ((isDisplayed_iff_display s n).1 hd)
        · simpa [closeModal_currentModal] using hcur

/-- Witness for C4 (amended): toggling the open, current assessment modal. -/
theorem toggleModal_existing_node_witness :
    getElementById assessmentOpen "assessment-modal" = some 0 ∧
    isDisplayed assessmentOpen 0 ∧ assessmentOpen.currentModal = some 0 ∧
    ∃ f, fireTimer ((toggleModal "assessment-modal" assessmentOpen).timers.length - 1)
        (toggleModal "assessment-modal" assessmentOpen) = some f ∧
      f.threw = false ∧ (f.state.elems[0]?).map (·.display) = some "none" ∧
      ¬ isDisplayed f.state 0 ∧ f.state.currentModal = none ∧
      f.state.bodyOverflow = "auto" :=
  ⟨by decide, by decide, by decide,
    (toggleModal_existing_node assessmentOpen "assessment-modal" 0 (by decide)).1
      (by decide) (by decide)⟩

/-- C4 as stated fails: with the assessment modal (element 0) and the paradigm
modal (element 7) both displayed and the paradigm modal current,
`toggleModal` on "assessment-modal" schedules the delayed hide, and once that
has fired the assessment modal is still displayed; the paradigm modal was
hidden instead. -/
theorem toggleModal_closes_other_modal :
    getElementById stackedModals "assessment-modal" = some 0 ∧
    isDisplayed stackedModals 0 ∧ stackedModals.currentModal = some 7 ∧
    (toggleModal "assessment-modal" stackedModals).timers[2]? =
      some { delay := 300, callback := .hideCurrent } ∧
    (toggleModal "assessment-modal" stackedModals).timers.length - 1 = 2 ∧
    (fireTimer 2 (toggleModal "assessment-modal" stackedModals)).map
      (fun f => (f.threw, (f.state.elems[0]?).map (·.display),
        (f.state.elems[7]?).map (·.display)))
      = some (false, some "block", some "none") := by
  decide

/-- C5: for every modal `m`, `openModal(m)`, then `closeModal()`, then the
firing of the delayed hide leaves the current-instance reference empty, page
scroll unlocked and `m` not displayed (its `display` is "none"); this is so
both when the hide fires at once and when the show callback that `openModal`
scheduled runs before it, as it does in real time. -/
theorem open_then_close (s : State) (m : Nat) (hm : m < s.elems.length) :
    (∃ f, fireTimer ((closeModal (openModal m s)).timers.length - 1)
        (closeModal (openModal m s)) = some f ∧
      f.threw = false ∧ f.state.currentModal = none ∧ f.state.bodyOverflow = "auto" ∧
      (f.state.elems[m]?).map (·.display) = some "none" ∧ ¬ isDisplayed f.state m) ∧
    (∃ f1, fireTimer s.timers.length (closeModal (openModal m s)) = some f1 ∧
      f1.threw = false ∧
      ∃ f, fireTimer (f1.state.timers.length - 1) f1.state = some f ∧
        f.threw = false ∧ f.state.currentModal = none ∧ f.state.bodyOverflow = "auto" ∧
        (f.state.elems[m]?).map (·.display) = some "none" ∧ ¬ isDisplayed f.state m) := by
  have hcur : (openModal m s).currentModal = some m := rfl
  have hlen : (openModal m s).elems.length = s.elems.length := by
    simp [openModal, State.update]
  have ht := closeModal_timers_of_current (openModal m s) m hcur
  have hnot : ¬ (some "none" = some "block") := by decide
  constructor
  · refine ⟨_, fireTimer_last _ _ _ ht, ?_⟩
    obtain ⟨h1, h2, h3, h4⟩ :=
      runCallback_hideCurrent
        { closeModal (openModal m s) with timers := (openModal m s).timers } m
        (by simpa [closeModal_length, hlen] using hm)
        (by simpa [closeModal_currentModal] using hcur)
    refine ⟨h1, h3, h4, h2, ?_⟩
    rw [isDisplayed_iff_display, h2]
    exact hnot
  · have hts : (closeModal (openModal m s)).timers =
        s.timers ++ [{ delay := 10, callback := .addShow m },
          { delay := 300, callback := .hideCurrent }] := by
      rw [ht]
      simp [openModal, State.update]
    have hfire : fireTimer s.timers.length (closeModal (openModal m s)) =
        some (runCallback
          { closeModal (openModal m s) with
            timers := s.timers ++ [{ delay := 300, callback := .hideCurrent }] }
          (.addShow m)) := by
      unfold fireTimer
      rw [hts, getElem?_append_length]
      simp [List.eraseIdx_append_of_length_le]
    refine ⟨_, hfire, rfl, ?_⟩
    refine ⟨_, fireTimer_last _ s.timers { delay := 300, callback := .hideCurrent } rfl, ?_⟩
    obtain ⟨h1, h2, h3, h4⟩ :=
      runCallback_hideCurrent
        { (runCallback
            { closeModal (openModal m s) with
              timers := s.timers ++ [{ delay := 300, callback := .hideCurrent }] }
            (.addShow m)).state with timers := s.timers } m
        (by simpa [runCallback, State.update, closeModal_length, hlen] using hm)
        (by simpa [runCallback, State.update, closeModal_currentModal] using hcur)
    refine ⟨h1, h3, h4, h2, ?_⟩
    rw [isDisplayed_iff_display, h2]
    exact hnot

/-- Witness for C5: the modal created for "assessment-modal" (element 0), on
the page where it exists and nothing is current. -/
theorem open_then_close_witness :
    getElementById assessmentClosed "assessment-modal" = some 0 ∧
    assessmentClosed.currentModal = none ∧ 0 < assessmentClosed.elems.length ∧
    ∃ f, fireTimer ((closeModal (openModal 0 assessmentClosed)).timers.length - 1)
        (closeModal (openModal 0 assessmentClosed)) = some f ∧
      f.threw = false ∧ f.state.currentModal = none ∧ f.state.bodyOverflow = "auto" ∧
      (f.state.elems[0]?).map (·.display) = some "none" ∧ ¬ isDisplayed f.state 0 :=
  ⟨by decide, by decide, by decide, (open_then_close assessmentClosed 0 (by decide)).1⟩

/-! ### Workflow tabs -/

theorem removeClass_idem (c : String) (e : Element) :
    removeClass c (removeClass c e) = removeClass c e := by
  simp [removeClass, List.filter_filter]

theorem mem_removeClass (c d : String) (e : Element) :
    d ∈ (removeClass c e).classes ↔ d ∈ e.classes ∧ d ≠ c := by
  simp [removeClass]

theorem mem_addClass (c d : String) (e : Element) :
    d ∈ (addClass c e).classes ↔ d ∈ e.classes ∨ d = c := by
  unfold addClass
  split
  · constructor
    · exact Or.inl
    · rintro (h | rfl)
      · exact h
      · assumption
  · simp

theorem isTabBtn_removeClass (e : Element) :
    isTabBtn (removeClass "active" e) = isTabBtn e := by
  simp [isTabBtn, hasClass, removeClass]

theorem isWorkflowContent_removeClass (e : Element) :
    isWorkflowContent (removeClass "active" e) = isWorkflowContent e := by
  simp [isWorkflowContent, hasClass, removeClass]

theorem isAITabBtn_removeClass (e : Element) :
    isAITabBtn (removeClass "active" e) = isAITabBtn e := by
  simp [isAITabBtn, isTabBtn, hasClass, removeClass]

theorem isAIWorkflowContent_removeClass (e : Element) :
    isAIWorkflowContent (removeClass "active" e) = isAIWorkflowContent e := by
  simp [isAIWorkflowContent, isWorkflowContent, hasClass, removeClass]

theorem firstIndex_map (p : Element → Bool) (g : Element → Element) (l : List Element) :
    firstIndex p (l.map g) = firstIndex (fun e => p (g e)) l := by
  induction l with
  | nil => rfl
  | cons a l ih => simp [firstIndex, ih]

theorem firstIndex_eq_some_iff {p : Element → Bool} {l : List Element} {i : Nat} :
    firstIndex p l = some i ↔
      (∃ e, l[i]? = some e ∧ p e = true) ∧ ∀ j e, j < i → l[j]? = some e → p e = false := by
  constructor
  · exact firstIndex_some
  · rintro ⟨⟨e, he, hpe⟩, hmin⟩
    cases h : firstIndex p l with
    | none =>
      have := firstIndex_eq_none.1 h e (List.getElem?_mem he)
      rw [this] at hpe
      cases hpe
    | some j =>
      obtain ⟨⟨e', he', hpe'⟩, hmin'⟩ := firstIndex_some h
      rcases Nat.lt_trichotomy j i with hlt | heq | hgt
      · rw [hmin j e' hlt he'] at hpe'
        cases hpe'
      · rw [heq]
      · rw [hmin' i e hgt he] at hpe
        cases hpe

/-- The clearing step of `showWorkflow` / `showAIWorkflow`, element by element. -/
theorem cleared_elems (tabSel panelSel : Element → Bool)
    (hp : ∀ e, panelSel (removeClass "active" e) = panelSel e) (s : State) :
    (forEachMatching panelSel (removeClass "active")
      (forEachMatching tabSel (removeClass "active") s)).elems =
    s.elems.map fun e => if tabSel e || panelSel e then removeClass "active" e else e := by
  simp only [forEachMatching, List.map_map]
  apply List.map_congr_left
  intro e _
  simp only [Function.comp]
  cases ht : tabSel e <;> cases hpe : panelSel e <;> simp [hp, hpe, removeClass_idem]

/-- What `showWorkflow` / `showAIWorkflow` leave at each position of the
document, in terms of the document before the call. -/
theorem activateWorkflow_getElem? (tabSel panelSel : Element → Bool)
    (ht : ∀ e, tabSel (removeClass "active" e) = tabSel e)
    (hp : ∀ e, panelSel (removeClass "active" e) = panelSel e)
    (toLowerCase : String → String) (k : String) (s : State) (i : Nat) :
    (activateWorkflow tabSel panelSel toLowerCase k s).elems[i]? =
      (s.elems[i]?).map fun e =>
        let e1 := if tabSel e || panelSel e then removeClass "active" e else e
        let e2 :=
          if firstIndex (fun e => tabSel e && decide (tabKey toLowerCase e.textContent = k))
              s.elems = some i
          then addClass "active" e1 else e1
        if getElementById s k = some i then addClass "active" e2 else e2 := by
  have hcl := cleared_elems tabSel panelSel hp s
  have hkeep : ∀ e : Element,
      (if tabSel e || panelSel e then removeClass "active" e else e).textContent = e.textContent ∧
      (if tabSel e || panelSel e then removeClass "active" e else e).id = e.id ∧
      (if tabSel e || panelSel e then removeClass "active" e else e).attached = e.attached ∧
      tabSel (if tabSel e || panelSel e then removeClass "active" e else e) = tabSel e := by
    intro e
    split
    · exact ⟨rfl, rfl, rfl, ht e⟩
    · exact ⟨rfl, rfl, rfl, rfl⟩
  have htab : firstIndex (fun e => tabSel e && decide (tabKey toLowerCase e.textContent = k))
      (s.elems.map fun e => if tabSel e || panelSel e then removeClass "active" e else e) =
      firstIndex (fun e => tabSel e && decide (tabKey toLowerCase e.textContent = k))
        s.elems := by
    rw [firstIndex_map]
    congr 1
    funext e
    rw [(hkeep e).1, (hkeep e).2.2.2]
  have hid : getElementById
      { s with elems := s.elems.map fun e =>
          if tabSel e || panelSel e then removeClass "active" e else e } k =
      getElementById s k := by
    unfold getElementById
    split
    · rfl
    · simp only [firstIndex_map]
      congr 1
      funext e
      rw [(hkeep e).2.1, (hkeep e).2.2.1]
  have hs2 : forEachMatching panelSel (removeClass "active")
      (forEachMatching tabSel (removeClass "active") s) =
      { s with elems := s.elems.map fun e =>
          if tabSel e || panelSel e then removeClass "active" e else e } := by
    rw [← hcl]
    rfl
  unfold activateWorkflow
  simp only [hs2, htab, hid]
  cases hT : firstIndex (fun e => tabSel e && decide (tabKey toLowerCase e.textContent = k))
      s.elems <;> cases hC : getElementById s k <;>
    simp only [update_elems_getElem?, List.getElem?_map] <;>
    cases s.elems[i]? <;> simp

theorem isFirstTabWithKey_iff (toLowerCase : String → String) (k : String) (s : State)
    (t : Nat) :
    isFirstTabWithKey toLowerCase k s t ↔
      firstIndex (fun e => isTabBtn e && decide (tabKey toLowerCase e.textContent = k))
        s.elems = some t := by
  rw [firstIndex_eq_some_iff]
  unfold isFirstTabWithKey
  constructor
  · rintro ⟨⟨e, he, h1, h2⟩, hmin⟩
    refine ⟨⟨e, he, by simp [h1, h2]⟩, ?_⟩
    intro j e' hj hje
    by_cases hb : isTabBtn e' = true
    · simp [hb, hmin j e' hj hje hb]
    · simp [hb]
  · rintro ⟨⟨e, he, h⟩, hmin⟩
    simp only [Bool.and_eq_true, decide_eq_true_eq] at h
    refine ⟨⟨e, he, h.1, h.2⟩, ?_⟩
    intro j e' hj hje hb hk
    have := hmin j e' hj hje
    simp [hb, hk] at this

theorem getElementById_some {s : State} {k : String} {i : Nat}
    (h : getElementById s k = some i) :
    ∃ e, s.elems[i]? = some e ∧ e.attached = true ∧ hasId k e := by
  unfold getElementById at h
  split at h
  · cases h
  · rename_i hk
    obtain ⟨⟨e, he, hp⟩, _⟩ := firstIndex_some h
    simp only [Bool.and_eq_true, decide_eq_true_eq] at hp
    exact ⟨e, he, hp.1, hk, hp.2⟩

/-- Which elements carry `active` after `showWorkflow` / `showAIWorkflow`: the
element the id resolves to, the first selected tab with the key, and any
element outside both selectors that carried it before. -/
theorem activateWorkflow_carries (tabSel panelSel : Element → Bool)
    (ht : ∀ e, tabSel (removeClass "active" e) = tabSel e)
    (hp : ∀ e, panelSel (removeClass "active" e) = panelSel e)
    (toLowerCase : String → String) (k : String) (s : State) (i : Nat) :
    carries "active" (activateWorkflow tabSel panelSel toLowerCase k s) i ↔
      ∃ e, s.elems[i]? = some e ∧
        (getElementById s k = some i ∨
         firstIndex (fun e => tabSel e && decide (tabKey toLowerCase e.textContent = k))
           s.elems = some i ∨
         ("active" ∈ e.classes ∧ (tabSel e || panelSel e) = false)) := by
  unfold carries
  rw [activateWorkflow_getElem? tabSel panelSel ht hp]
  cases s.elems[i]? with
  | none => simp
  | some e =>
    simp only [Option.map_some', Option.some.injEq, exists_eq_left']
    by_cases hC : getElementById s k = some i <;>
      by_cases hT : firstIndex
        (fun e => tabSel e && decide (tabKey toLowerCase e.textContent = k)) s.elems = some i <;>
      by_cases hsel : (tabSel e || panelSel e) = true <;>
      simp [hC, hT, hsel, mem_addClass, mem_removeClass]

/-- With unique ids, an id resolves to the element that has it. -/
theorem getElementById_of_hasId (s : State) (k : String) (p : Nat) (e : Element)
    (hids : uniqueIds s) (he : s.elems[p]? = some e) (hatt : e.attached = true)
    (hid : hasId k e) : getElementById s k = some p := by
  obtain ⟨hk, hek⟩ := hid
  unfold getElementById
  rw [if_neg hk, firstIndex_eq_some_iff]
  refine ⟨⟨e, he, by simp [hatt, hek]⟩, ?_⟩
  intro j ej hj hje
  by_contra hcon
  simp only [Bool.not_eq_false, Bool.and_eq_true, decide_eq_true_eq] at hcon
  have hp : p < s.elems.length := by
    by_contra hge
    rw [List.getElem?_eq_none (by omega)] at he
    cases he
  have hjl : j < s.elems.length := by omega
  have hrel := (List.pairwise_iff_getElem.1 hids) j p hjl hp hj
  have h1 : s.elems[j] = ej := by
    have := List.getElem?_eq_getElem hjl
    rw [hje] at this
    exact (Option.some.inj this).symm
  have h2 : s.elems[p] = e := by
    have := List.getElem?_eq_getElem hp
    rw [he] at this
    exact (Option.some.inj this).symm
  rw [h1, h2] at hrel
  exact hrel hcon.1 hatt (by rw [hcon.2]; exact hk) (by rw [hcon.2, hek])

/-- C6: in a document whose ids are unique and in which no element is both a
tab button and a workflow panel, after `showWorkflow(k)`: if a panel with id
`k` exists, then that panel and the (first) tab button whose derived key is
`k` carry `active` and no other tab button or workflow panel carries it; if no
panel has id `k`, then no workflow panel carries `active` afterwards. -/
theorem showWorkflow_activates_pair (toLowerCase : String → String) (s : State) (k : String)
    (hids : uniqueIds s)
    (hroles : ∀ e ∈ s.elems, ¬ (isTabBtn e = true ∧ isWorkflowContent e = true)) :
    (∀ p e, s.elems[p]? = some e → isWorkflowContent e = true → hasId k e →
      carries "active" (showWorkflow toLowerCase k s) p ∧
      (∀ t, isFirstTabWithKey toLowerCase k s t →
        carries "active" (showWorkflow toLowerCase k s) t) ∧
      (∀ i, matchedBy isTabBtn s i ∨ matchedBy isWorkflowContent s i →
        carries "active" (showWorkflow toLowerCase k s) i →
        i = p ∨ isFirstTabWithKey toLowerCase k s i)) ∧
    ((∀ e ∈ s.elems, isWorkflowContent e = true → ¬ hasId k e) →
      ∀ i, matchedBy isWorkflowContent s i →
        ¬ carries "active" (showWorkflow toLowerCase k s) i) := by
  have hcar := activateWorkflow_carries isTabBtn isWorkflowContent isTabBtn_removeClass
    isWorkflowContent_removeClass toLowerCase k s
  refine ⟨?_, ?_⟩
  · intro p e he hpanel hid
    have hatt : e.attached = true := by
      simp only [isWorkflowContent, Bool.and_eq_true] at hpanel
      exact hpanel.1
    have hp : getElementById s k = some p := getElementById_of_hasId s k p e hids he hatt hid
    refine ⟨(hcar p).2 ⟨e, he, Or.inl hp⟩, ?_, ?_⟩
    · intro t ht
      have hfirst := (isFirstTabWithKey_iff _ _ _ _).1 ht
      obtain ⟨⟨et, het, _⟩, _⟩ := ht
      exact (hcar t).2 ⟨et, het, Or.inr (Or.inl hfirst)⟩
    · intro i hsel hact
      obtain ⟨ei, hei, h | h | h⟩ := (hcar i).1 hact
      · left
        rw [hp] at h
        exact (Option.some.inj h).symm
      · right
        exact (isFirstTabWithKey_iff _ _ _ _).2 h
      · exfalso
        rcases hsel with ⟨e', he', hs⟩ | ⟨e', he', hs⟩ <;>
          · rw [hei] at he'
            cases he'
            simp [hs] at h
  · intro hnone i hpanel hact
    obtain ⟨e, he, hs⟩ := hpanel
    obtain ⟨ei, hei, h | h | h⟩ := (hcar i).1 hact
    · obtain ⟨e', he', _, hid⟩ := getElementById_some h
      rw [he] at he'
      cases he'
      exact hnone e (List.getElem?_mem he) hs hid
    · obtain ⟨⟨e', he', htab, _⟩, _⟩ := (isFirstTabWithKey_iff _ _ _ _).2 h
      rw [he] at he'
      cases he'
      exact hroles e (List.getElem?_mem he) ⟨htab, hs⟩
    · rw [he] at hei
      cases hei
      simp [hs] at h

/-- Witness for C6: on the page with tabs "Overview" / "Quick Start",
activating "quick-start" (panel 3, tab 1), and activating a key no panel has. -/
theorem showWorkflow_activates_pair_witness :
    uniqueIds workflowPage ∧
    (∀ e ∈ workflowPage.elems, ¬ (isTabBtn e = true ∧ isWorkflowContent e = true)) ∧
    carries "active" (showWorkflow asciiToLowerCase "quick-start" workflowPage) 3 ∧
    carries "active" (showWorkflow asciiToLowerCase "quick-start" workflowPage) 1 ∧
    ¬ carries "active" (showWorkflow asciiToLowerCase "missing" workflowPage) 2 :=
  ⟨by decide, by decide,
    ((showWorkflow_activates_pair asciiToLowerCase workflowPage "quick-start" (by decide)
      (by decide)).1 3 _ rfl (by decide) (by decide)).1,
    ((showWorkflow_activates_pair asciiToLowerCase workflowPage "quick-start" (by decide)
      (by decide)).1 3 _ rfl (by decide) (by decide)).2.1 1
      ((isFirstTabWithKey_iff asciiToLowerCase "quick-start" workflowPage 1).2 (by decide)),
    (showWorkflow_activates_pair asciiToLowerCase workflowPage "missing" (by decide)
      (by decide)).2 (by decide) 2 (by decide)⟩

/-- C7 (amended): `showAIWorkflow(key)` leaves every element outside the AI
workflow group exactly as it was, except the element the id `key` resolves to,
which receives `active` wherever it lies and is otherwise as it was;
`showWorkflow(key)` is document-wide: afterwards a tab button or panel inside
the AI workflow group carries `active` if and only if it is the first tab
button with derived key `key` or the element the id `key` resolves to. -/
theorem workflow_groups_frame (toLowerCase : String → String) (s : State) (k : String) :
    (∀ i e, s.elems[i]? = some e → e.inAIWorkflowTabs = false →
      (showAIWorkflow toLowerCase k s).elems[i]? =
        some (if getElementById s k = some i then addClass "active" e else e)) ∧
    (∀ c, getElementById s k = some c →
      carries "active" (showAIWorkflow toLowerCase k s) c) ∧
    (∀ i, matchedBy isAITabBtn s i ∨ matchedBy isAIWorkflowContent s i →
      (carries "active" (showWorkflow toLowerCase k s) i ↔
        (isFirstTabWithKey toLowerCase k s i ∨ getElementById s k = some i))) := by
  refine ⟨?_, ?_, ?_⟩
  · intro i e he hout
    have hT : firstIndex
        (fun e => isAITabBtn e && decide (tabKey toLowerCase e.textContent = k)) s.elems
        ≠ some i := by
      intro h
      obtain ⟨⟨e', he', hp⟩, _⟩ := firstIndex_some h
      rw [he] at he'
      cases he'
      simp [isAITabBtn, hout] at hp
    unfold showAIWorkflow
    rw [activateWorkflow_getElem? isAITabBtn isAIWorkflowContent isAITabBtn_removeClass
      isAIWorkflowContent_removeClass, he]
    have hsel : (isAITabBtn e || isAIWorkflowContent e) = false := by
      simp [isAITabBtn, isAIWorkflowContent, hout]
    simp only [Option.map_some', hT, hsel, if_false, Bool.false_eq_true]
  · intro c hc
    obtain ⟨e, he, _⟩ := getElementById_some hc
    unfold showAIWorkflow
    rw [activateWorkflow_carries isAITabBtn isAIWorkflowContent isAITabBtn_removeClass
      isAIWorkflowContent_removeClass]
    exact ⟨e, he, Or.inl hc⟩
  · intro i hsel
    have hcar := activateWorkflow_carries isTabBtn isWorkflowContent isTabBtn_removeClass
      isWorkflowContent_removeClass toLowerCase k s i
    have hex : ∃ e, s.elems[i]? = some e ∧ (isTabBtn e || isWorkflowContent e) = true := by
      rcases hsel with ⟨e, he, hs⟩ | ⟨e, he, hs⟩
      · refine ⟨e, he, ?_⟩
        simp only [isAITabBtn, Bool.and_eq_true] at hs
        simp [hs.1]
      · refine ⟨e, he, ?_⟩
        simp only [isAIWorkflowContent, Bool.and_eq_true] at hs
        simp [hs.1]
    obtain ⟨e, he, hsel'⟩ := hex
    unfold showWorkflow
    rw [hcar, isFirstTabWithKey_iff]
    constructor
    · rintro ⟨e', he', h | h | h⟩
      · exact Or.inr h
      · exact Or.inl h
      · rw [he] at he'
        cases he'
        rw [hsel'] at h
        cases h.2
    · rintro (h | h)
      · exact ⟨e, he, Or.inr (Or.inl h)⟩
      · exact ⟨e, he, Or.inl h⟩

/-- Witness for C7 (amended): on the page with both groups,
`showAIWorkflow("content-generation")` leaves the primary tab "Overview"
(element 0) as it was, `showAIWorkflow("quick-start")` adds `active` to the
primary panel "quick-start" (element 3) and changes nothing else of it, and
after `showWorkflow("quick-start")` the AI tab (element 4) does not carry
`active`. -/
theorem workflow_groups_frame_witness :
    (showAIWorkflow asciiToLowerCase "content-generation" workflowPage).elems[0]? =
      some { classes := ["tab-btn", "active"], textContent := "Overview" } ∧
    (showAIWorkflow asciiToLowerCase "quick-start" workflowPage).elems[3]? =
      some { id := "quick-start", classes := ["workflow-content", "active"] } ∧
    carries "active" (showAIWorkflow asciiToLowerCase "quick-start" workflowPage) 3 ∧
    matchedBy isAITabBtn workflowPage 4 ∧
    ¬ carries "active" (showWorkflow asciiToLowerCase "quick-start" workflowPage) 4 :=
  ⟨((workflow_groups_frame asciiToLowerCase workflowPage "content-generation").1 0
      { classes := ["tab-btn", "active"], textContent := "Overview" }
      (by decide) (by decide)).trans (by decide),
    ((workflow_groups_frame asciiToLowerCase workflowPage "quick-start").1 3
      { id := "quick-start", classes := ["workflow-content"] }
      (by decide) (by decide)).trans (by decide),
    (workflow_groups_frame asciiToLowerCase workflowPage "quick-start").2.1 3 (by decide),
    by decide,
    fun h => by
      have := ((workflow_groups_frame asciiToLowerCase workflowPage "quick-start").2.2 4
        (Or.inl (by decide))).1 h
      rw [isFirstTabWithKey_iff] at this
      revert this
      decide⟩

/-- C7 as stated fails in both directions: on the page with both groups,
`showWorkflow("quick-start")` removes `active` from the tab button (element 4)
and the panel (element 5) inside the AI workflow group, and
`showAIWorkflow("quick-start")` adds `active` to the panel "quick-start"
(element 3), which lies outside the AI workflow group. -/
theorem workflow_groups_interact :
    (matchedBy isAITabBtn workflowPage 4 ∧ carries "active" workflowPage 4 ∧
      ¬ carries "active" (showWorkflow asciiToLowerCase "quick-start" workflowPage) 4) ∧
    (matchedBy isAIWorkflowContent workflowPage 5 ∧ carries "active" workflowPage 5 ∧
      ¬ carries "active" (showWorkflow asciiToLowerCase "quick-start" workflowPage) 5) ∧
    (matchedBy isWorkflowContent workflowPage 3 ∧
      ¬ matchedBy isAIWorkflowContent workflowPage 3 ∧
      ¬ carries "active" workflowPage 3 ∧
      carries "active" (showAIWorkflow asciiToLowerCase "quick-start" workflowPage) 3) := by
  decide

/-! ### Tab keys -/

theorem replaceRuns_copy (pre rest : List Char)
    (hpre : ∀ c ∈ pre, isJSWhitespace c = false) :
    replaceRuns false (pre ++ rest) = pre ++ replaceRuns false rest := by
  induction pre with
  | nil => rfl
  | cons c pre ih =>
    have hc : isJSWhitespace c = false := hpre c (List.mem_cons_self _ _)
    have hstep : replaceRuns false (c :: (pre ++ rest)) = c :: replaceRuns false (pre ++ rest) := by
      simp [replaceRuns, hc]
    rw [List.cons_append, hstep, ih (fun d hd => hpre d (List.mem_cons_of_mem _ hd)),
      List.cons_append]

theorem replaceRuns_skip (ws post : List Char) (hws : ∀ c ∈ ws, isJSWhitespace c = true)
    (hpost : ∀ c, post.head? = some c → isJSWhitespace c = false) :
    replaceRuns true (ws ++ post) = replaceRuns false post := by
  induction ws with
  | nil =>
    cases post with
    | nil => rfl
    | cons c cs =>
      have hc : isJSWhitespace c = false := hpost c rfl
      simp [replaceRuns, hc]
  | cons w ws ih =>
    have hw : isJSWhitespace w = true := hws w (List.mem_cons_self _ _)
    have hstep : replaceRuns true (w :: (ws ++ post)) = replaceRuns true (ws ++ post) := by
      simp [replaceRuns, hw]
    rw [List.cons_append, hstep]
    exact ih (fun d hd => hws d (List.mem_cons_of_mem _ hd))

theorem replaceRuns_no_whitespace (b : Bool) (cs : List Char) :
    ∀ c ∈ replaceRuns b cs, isJSWhitespace c = false := by
  induction cs generalizing b with
  | nil => simp [replaceRuns]
  | cons a cs ih =>
    intro c hc
    simp only [replaceRuns] at hc
    split at hc
    · split at hc
      · exact ih true c hc
      · rcases List.mem_cons.1 hc with rfl | h
        · decide
        · exact ih true c h
    · rename_i ha
      rcases List.mem_cons.1 hc with rfl | h
      · simpa using ha
      · exact ih false c h

theorem replaceRuns_run (run post : List Char) (hne : run ≠ [])
    (hrun : ∀ c ∈ run, isJSWhitespace c = true)
    (hpost : ∀ c, post.head? = some c → isJSWhitespace c = false) :
    replaceRuns false (run ++ post) = '-' :: replaceRuns false post := by
  cases run with
  | nil => exact absurd rfl hne
  | cons w ws =>
    have hw : isJSWhitespace w = true := hrun w (List.mem_cons_self _ _)
    have hstep : replaceRuns false (w :: (ws ++ post)) = '-' :: replaceRuns true (ws ++ post) := by
      simp [replaceRuns, hw]
    rw [List.cons_append, hstep,
      replaceRuns_skip ws post (fun d hd => hrun d (List.mem_cons_of_mem _ hd)) hpost]

theorem replaceRuns_word (word : List Char) (h : ∀ c ∈ word, isJSWhitespace c = false) :
    replaceRuns false word = word := by
  have := replaceRuns_copy word [] h
  simpa [replaceRuns] using this

/-- The scan of the source computes the hyphenated text of every cut into
words and maximal runs. -/
theorem replaceRuns_spellOut (segs : List (List Char × List Char)) (last : List Char)
    (h : isRunSplit segs last) :
    replaceWhitespaceRuns (spellOut segs last) = hyphenated segs last := by
  unfold replaceWhitespaceRuns
  obtain ⟨hseg, htail, hlast⟩ := h
  induction segs with
  | nil => exact replaceRuns_word last hlast
  | cons p rest ih =>
    obtain ⟨word, run⟩ := p
    obtain ⟨hword, hne, hrun⟩ := hseg (word, run) (List.mem_cons_self _ _)
    have hrest : ∀ p ∈ rest, (∀ c ∈ p.1, isJSWhitespace c = false) ∧ p.2 ≠ [] ∧
        ∀ c ∈ p.2, isJSWhitespace c = true :=
      fun p hp => hseg p (List.mem_cons_of_mem _ hp)
    have hpost : ∀ c, (spellOut rest last).head? = some c → isJSWhitespace c = false := by
      intro c hc
      cases rest with
      | nil => exact hlast c (List.mem_of_mem_head? hc)
      | cons q rest2 =>
        obtain ⟨w2, r2⟩ := q
        have hw2 : w2 ≠ [] := htail (w2, r2) (List.mem_cons_self _ _)
        have hmem : c ∈ w2 := by
          cases w2 with
          | nil => exact absurd rfl hw2
          | cons a w3 =>
            simp only [spellOut, List.cons_append, List.head?_cons, Option.some.injEq] at hc
            rw [← hc]
            exact List.mem_cons_self _ _
        exact (hrest (w2, r2) (List.mem_cons_self _ _)).1 c hmem
    have ih2 := ih hrest (fun p hp => htail p (List.mem_of_mem_tail hp))
    simp only [spellOut, hyphenated, List.append_assoc]
    rw [replaceRuns_copy word _ hword, replaceRuns_run run _ hne hrun hpost, ih2]

/-- Every text is the spelling of its cut into words and maximal runs. -/
theorem splitRuns_spec (cs : List Char) :
    isRunSplit (splitRuns cs).1 (splitRuns cs).2 ∧
    spellOut (splitRuns cs).1 (splitRuns cs).2 = cs := by
  induction cs with
  | nil => exact ⟨⟨by simp [splitRuns], by simp [splitRuns], by simp [splitRuns]⟩, rfl⟩
  | cons c cs ih =>
    obtain ⟨⟨hseg, htail, hlast⟩, hsp⟩ := ih
    simp only [splitRuns]
    cases hs : splitRuns cs with
    | mk segs last =>
      rw [hs] at hseg htail hlast hsp
      simp only at hseg htail hlast hsp
      cases segs with
      | nil =>
        simp only [spellOut] at hsp
        subst hsp
        by_cases hc : isJSWhitespace c = true
        · simp only [hc, if_true]
          refine ⟨⟨?_, ?_, hlast⟩, by simp [spellOut]⟩
          · intro p hp
            simp only [List.mem_singleton] at hp
            subst hp
            simp [hc]
          · simp
        · simp only [hc, if_false]
          refine ⟨⟨by simp, by simp, ?_⟩, rfl⟩
          intro d hd
          rcases List.mem_cons.1 hd with rfl | hd
          · simpa using hc
          · exact hlast d hd
      | cons p rest =>
        obtain ⟨word, run⟩ := p
        obtain ⟨hword, hne, hrun⟩ := hseg (word, run) (List.mem_cons_self _ _)
        have hrest : ∀ p ∈ rest, (∀ c ∈ p.1, isJSWhitespace c = false) ∧ p.2 ≠ [] ∧
            ∀ c ∈ p.2, isJSWhitespace c = true :=
          fun p hp => hseg p (List.mem_cons_of_mem _ hp)
        simp only [spellOut] at hsp
        subst hsp
        by_cases hc : isJSWhitespace c = true
        · simp only [hc, if_true]
          by_cases hw : word.isEmpty = true
          · have hw2 : word = [] := List.isEmpty_iff.1 hw
            subst hw2
            simp only [List.isEmpty_nil, if_true]
            refine ⟨⟨?_, htail, hlast⟩, by simp [spellOut]⟩
            intro p hp
            rcases List.mem_cons.1 hp with rfl | hp
            · refine ⟨by simp, by simp, ?_⟩
              intro d hd
              rcases List.mem_cons.1 hd with rfl | hd
              · exact hc
              · exact hrun d hd
            · exact hrest p hp
          · simp only [hw, if_false]
            refine ⟨⟨?_, ?_, hlast⟩, by simp [spellOut]⟩
            · intro p hp
              rcases List.mem_cons.1 hp with rfl | hp
              · simp [hc]
              · exact hseg p hp
            · intro p hp
              rcases List.mem_cons.1 hp with rfl | hp
              · intro h0
                apply hw
                simp only at h0
                rw [h0]
                rfl
              · exact htail p hp
        · simp only [hc, if_false]
          refine ⟨⟨?_, htail, hlast⟩, by simp [spellOut]⟩
          intro p hp
          rcases List.mem_cons.1 hp with rfl | hp
          · refine ⟨?_, hne, hrun⟩
            intro d hd
            rcases List.mem_cons.1 hd with rfl | hd
            · simpa using hc
            · exact hword d hd
          · exact hrest p hp

theorem collapseInternalRuns_of_trimmed (cs : List Char)
    (hhead : ∀ c, cs.head? = some c → isJSWhitespace c = false)
    (hlast : ∀ c, cs.getLast? = some c → isJSWhitespace c = false) :
    collapseInternalRuns cs = replaceWhitespaceRuns cs := by
  have h1 : cs.takeWhile isJSWhitespace = [] := by
    cases cs with
    | nil => rfl
    | cons a l => simp [List.takeWhile, hhead a rfl]
  have h2 : cs.dropWhile isJSWhitespace = cs := by
    cases cs with
    | nil => rfl
    | cons a l => simp [List.dropWhile, hhead a rfl]
  have h3 : cs.reverse.takeWhile isJSWhitespace = [] := by
    cases hr : cs.reverse with
    | nil => rfl
    | cons a l =>
      have : cs.getLast? = some a := by
        rw [← List.head?_reverse, hr]
        rfl
      simp [List.takeWhile, hlast a this]
  have h4 : cs.reverse.dropWhile isJSWhitespace = cs.reverse := by
    cases hr : cs.reverse with
    | nil => rfl
    | cons a l =>
      have : cs.getLast? = some a := by
        rw [← List.head?_reverse, hr]
        rfl
      simp [List.dropWhile, hlast a this]
  have h5 : hyphenated (splitRuns cs).1 (splitRuns cs).2 = replaceWhitespaceRuns cs := by
    rw [← replaceRuns_spellOut _ _ (splitRuns_spec cs).1, (splitRuns_spec cs).2]
  simp [collapseInternalRuns, h1, h2, h3, h4, h5]

/-- C8 (amended): the derived key is the lower-cased label in which every
maximal run of whitespace, a leading or trailing run included, is replaced by
exactly one hyphen and every other character is copied unchanged.  Whenever
the lower-cased label is cut into words and maximal runs, the key is the words
in their order with one hyphen for each run; every label has such a cut; a
lower-cased label without whitespace is its own key; no whitespace is left in
a key; and when the lower-cased label neither starts nor ends with whitespace
the key is the derivation of the specification (internal runs only). -/
theorem tabKey_replaces_every_run (toLowerCase : String → String) (label : String) :
    (∀ segs last, isRunSplit segs last → (toLowerCase label).data = spellOut segs last →
      (tabKey toLowerCase label).data = hyphenated segs last) ∧
    (isRunSplit (splitRuns (toLowerCase label).data).1 (splitRuns (toLowerCase label).data).2 ∧
      spellOut (splitRuns (toLowerCase label).data).1 (splitRuns (toLowerCase label).data).2 =
        (toLowerCase label).data) ∧
    ((∀ c ∈ (toLowerCase label).data, isJSWhitespace c = false) →
      tabKey toLowerCase label = toLowerCase label) ∧
    (∀ c ∈ (tabKey toLowerCase label).data, isJSWhitespace c = false) ∧
    ((∀ c, (toLowerCase label).data.head? = some c → isJSWhitespace c = false) →
      (∀ c, (toLowerCase label).data.getLast? = some c → isJSWhitespace c = false) →
      tabKey toLowerCase label = specTabKey toLowerCase label) := by
  refine ⟨?_, splitRuns_spec _, ?_, replaceRuns_no_whitespace false _, ?_⟩
  · intro segs last hsplit hlabel
    simp only [tabKey, hlabel]
    exact replaceRuns_spellOut segs last hsplit
  · intro hfree
    simp only [tabKey, replaceWhitespaceRuns]
    rw [replaceRuns_word _ hfree]
  · intro hhead hlast
    simp only [tabKey, specTabKey]
    rw [collapseInternalRuns_of_trimmed _ hhead hlast]

/-- Witness for C8 (amended): "Quick Start" gives "quick-start", "Overview"
gives "overview", and " Quick  Start" is cut into a leading run, the word
"quick", a run of two spaces and the word "start". -/
theorem tabKey_replaces_every_run_witness :
    tabKey asciiToLowerCase "Quick Start" = "quick-start" ∧
    tabKey asciiToLowerCase "Overview" = "overview" ∧
    tabKey asciiToLowerCase "Quick Start" = specTabKey asciiToLowerCase "Quick Start" ∧
    (tabKey asciiToLowerCase " Quick  Start").data =
      hyphenated [([], [' ']), ("quick".data, [' ', ' '])] "start".data ∧
    hyphenated [([], [' ']), ("quick".data, [' ', ' '])] "start".data = "-quick-start".data :=
  ⟨by decide,
    (tabKey_replaces_every_run asciiToLowerCase "Overview").2.2.1 (by decide),
    (tabKey_replaces_every_run asciiToLowerCase "Quick Start").2.2.2.2 (by decide) (by decide),
    (tabKey_replaces_every_run asciiToLowerCase " Quick  Start").1
      [([], [' ']), ("quick".data, [' ', ' '])] "start".data (by decide) (by decide),
    by decide⟩

/-- C8 as stated fails: for the label " Quick Start" (a leading space, as left
by an icon before the text) the code gives "-quick-start", while lower-casing
and collapsing only the internal run gives " quick-start". -/
theorem tabKey_leading_whitespace :
    tabKey asciiToLowerCase " Quick Start" = "-quick-start" ∧
    specTabKey asciiToLowerCase " Quick Start" = " quick-start" ∧
    tabKey asciiToLowerCase " Quick Start" ≠ specTabKey asciiToLowerCase " Quick Start" := by
  decide

/-! ### Parsing levels -/

theorem digitChar_facts (d : Nat) (h : d < 10) :
    digitValue (Nat.digitChar d) = some d ∧ isJSWhitespace (Nat.digitChar d) = false ∧
    Nat.digitChar d ≠ '-' ∧ Nat.digitChar d ≠ '+' ∧ Nat.digitChar d ≠ 'x' ∧
    Nat.digitChar d ≠ 'X' := by
  interval_cases d <;> decide

theorem toDigitsCore_append (fuel n : Nat) (ds : List Char) :
    Nat.toDigitsCore 10 fuel n ds = Nat.toDigitsCore 10 fuel n [] ++ ds := by
  induction fuel generalizing n ds with
  | zero => simp [Nat.toDigitsCore]
  | succ fuel ih =>
    simp only [Nat.toDigitsCore]
    split
    · simp
    · rw [ih (n / 10) (_ :: ds), ih (n / 10) [_]]
      simp

theorem toDigitsCore_spec (fuel n : Nat) (h : n < fuel) :
    (∀ c ∈ Nat.toDigitsCore 10 fuel n [], isDecimalDigit c) ∧
    Nat.toDigitsCore 10 fuel n [] ≠ [] ∧
    digitsValue 10 (Nat.toDigitsCore 10 fuel n []) = n := by
  induction fuel generalizing n with
  | zero => omega
  | succ fuel ih =>
    simp only [Nat.toDigitsCore]
    have hd : n % 10 < 10 := Nat.mod_lt _ (by norm_num)
    split
    · rename_i h0
      refine ⟨?_, by simp, ?_⟩
      · intro c hc
        simp only [List.mem_singleton] at hc
        exact ⟨n % 10, hd, hc⟩
      · simp [digitsValue, (digitChar_facts _ hd).1]
        omega
    · rename_i h0
      obtain ⟨h1, h2, h3⟩ := ih (n / 10) (by omega)
      rw [toDigitsCore_append]
      refine ⟨?_, by simp, ?_⟩
      · intro c hc
        rcases List.mem_append.1 hc with hc | hc
        · exact h1 c hc
        · simp only [List.mem_singleton] at hc
          exact ⟨n % 10, hd, hc⟩
      · unfold digitsValue at h3 ⊢
        rw [List.foldl_append, h3]
        simp [(digitChar_facts _ hd).1]
        omega


theorem takeWhile_all {p : Char → Bool} {l : List Char} (h : ∀ c ∈ l, p c = true) :
    l.takeWhile p = l := by
  induction l with
  | nil => rfl
  | cons a l ih =>
    simp [List.takeWhile, h a (List.mem_cons_self _ _),
      ih (fun c hc => h c (List.mem_cons_of_mem _ hc))]

theorem isDecimalDigit_facts {c : Char} (h : isDecimalDigit c) :
    isRadixDigit 10 c = true ∧ isJSWhitespace c = false ∧ c ≠ '-' ∧ c ≠ '+' ∧ c ≠ 'x' ∧
    c ≠ 'X' := by
  obtain ⟨d, hd, rfl⟩ := h
  obtain ⟨h1, h2, h3, h4, h5, h6⟩ := digitChar_facts d hd
  exact ⟨by simp [isRadixDigit, h1, hd], h2, h3, h4, h5, h6⟩

theorem tail_head_not_x {l : List Char} (h : ∀ c ∈ l, isDecimalDigit c) :
    l.tail.head? ≠ some 'x' ∧ l.tail.head? ≠ some 'X' := by
  cases l with
  | nil => simp
  | cons a l =>
    cases l with
    | nil => simp
    | cons b l =>
      have hb := isDecimalDigit_facts (h b (by simp))
      simp only [List.tail_cons, List.head?_cons, ne_eq, Option.some.injEq]
      exact ⟨hb.2.2.2.2.1, hb.2.2.2.2.2⟩

theorem parseInt_decimal_digits (ds : List Char) (hds : ∀ c ∈ ds, isDecimalDigit c)
    (hne : ds ≠ []) (hv : digitsValue 10 ds < 2 ^ 53) :
    parseInt (String.mk ds) = .finite (digitsValue 10 ds) ∧
    parseInt (String.mk ('-' :: ds)) = .finite (-(digitsValue 10 ds : Int)) := by
  obtain ⟨hx, hX⟩ := tail_head_not_x hds
  have htw : ds.takeWhile (isRadixDigit 10) = ds :=
    takeWhile_all fun c hc => (isDecimalDigit_facts (hds c hc)).1
  have hround : roundToDouble (digitsValue 10 ds) = some (digitsValue 10 ds) := by
    unfold roundToDouble
    rw [if_pos hv]
  cases ds with
  | nil => exact absurd rfl hne
  | cons a l =>
    obtain ⟨_, hws, hminus, hplus, _, _⟩ := isDecimalDigit_facts (hds a (by simp))
    constructor
    · simp only [parseInt, List.dropWhile, hws, List.head?_cons, Option.some.injEq, hminus,
        hplus, or_self, if_false, hx, hX, decide_False, Bool.or_self, Bool.and_false,
        Bool.false_eq_true, htw, hround]
      simp
    · have hwm : isJSWhitespace '-' = false := by decide
      simp only [List.tail_cons] at hx hX
      simp only [parseInt, List.dropWhile, hwm, List.head?_cons, true_or, if_true,
        List.tail_cons, hx, hX, decide_False, Bool.or_self, Bool.and_false,
        Bool.false_eq_true, if_false, htw, hround, decide_True]
      simp


theorem toString_nat_eq (k : Nat) : toString k = String.mk (Nat.toDigitsCore 10 (k + 1) k []) :=
  rfl

theorem toString_negSucc_eq (k : Nat) :
    toString (Int.negSucc k) = String.mk ('-' :: Nat.toDigitsCore 10 (k + 2) (k + 1) []) :=
  rfl

theorem parseInt_toString (m : Int) (hm : m.natAbs < 2 ^ 53) :
    parseInt (toString m) = .finite m := by
  cases m with
  | ofNat k =>
    obtain ⟨h1, h2, h3⟩ := toDigitsCore_spec (k + 1) k (by omega)
    have hk : k < 2 ^ 53 := by simpa using hm
    have := (parseInt_decimal_digits _ h1 h2 (by rw [h3]; exact hk)).1
    rw [h3] at this
    exact this
  | negSucc k =>
    obtain ⟨h1, h2, h3⟩ := toDigitsCore_spec (k + 2) (k + 1) (by omega)
    have hk : k + 1 < 2 ^ 53 := by simpa using hm
    have := (parseInt_decimal_digits _ h1 h2 (by rw [h3]; exact hk)).2
    rw [h3] at this
    rw [toString_negSucc_eq, this]
    rfl

/-! ### System cards -/

theorem addClass_dataLevel (c : String) (e : Element) :
    (addClass c e).dataLevel = e.dataLevel := by
  unfold addClass
  split <;> rfl

theorem levelOf_update_addClass (st : State) (c : Nat) (x : String) (i : Nat) :
    levelOf (st.update c (addClass x)) i = levelOf st i := by
  unfold levelOf datasetLevel
  rw [update_elems_getElem?]
  cases st.elems[i]? with
  | none => rfl
  | some e =>
    by_cases h : c = i
    · simp [h, addClass_dataLevel]
    · simp [h]

theorem addClass_idem (c : String) (e : Element) :
    addClass c (addClass c e) = addClass c e := by
  have hmem : c ∈ (addClass c e).classes := (mem_addClass c c e).2 (Or.inr rfl)
  generalize addClass c e = e1 at hmem ⊢
  simp [addClass, hmem]

/-- The loop of `showSystemConnections`, element by element: the levels of
all cards are unchanged, and exactly the listed cards adjacent to `level`
receive `connected`. -/
theorem connect_loop (level : JSNumber) (cs : List Nat) (st : State) :
    (∀ i, levelOf (cs.foldl (fun st c =>
        if isAdjacent (levelOf st c) level then st.update c (addClass "connected") else st)
        st) i = levelOf st i) ∧
    ∀ i, (cs.foldl (fun st c =>
        if isAdjacent (levelOf st c) level then st.update c (addClass "connected") else st)
        st).elems[i]? =
      (st.elems[i]?).map fun e =>
        if i ∈ cs ∧ isAdjacent (levelOf st i) level = true then addClass "connected" e
        else e := by
  induction cs generalizing st with
  | nil => simp
  | cons c cs ih =>
    simp only [List.foldl_cons]
    by_cases hadj : isAdjacent (levelOf st c) level = true
    · simp only [hadj, if_true]
      obtain ⟨ihl, ihe⟩ := ih (st.update c (addClass "connected"))
      refine ⟨fun i => (ihl i).trans (levelOf_update_addClass st c _ i), ?_⟩
      intro i
      rw [ihe i, update_elems_getElem?]
      cases st.elems[i]? with
      | none => rfl
      | some e =>
        simp only [levelOf_update_addClass, Option.map_eq_map, Option.map_some',
          Option.some.injEq, List.mem_cons]
        by_cases hci : c = i
        · subst hci
          simp [hadj, addClass_idem]
        · have hic : ¬ i = c := fun h => hci h.symm
          simp [hci, hic]
    · simp only [hadj, Bool.false_eq_true, if_false]
      obtain ⟨ihl, ihe⟩ := ih st
      refine ⟨ihl, ?_⟩
      intro i
      rw [ihe i]
      cases st.elems[i]? with
      | none => rfl
      | some e =>
        simp only [Option.map_some', Option.some.injEq, List.mem_cons]
        by_cases hci : i = c
        · subst hci
          simp [hadj]
        · simp [hci]

theorem levelOf_finite_exists {s : State} {c : Nat} {m : Int}
    (h : levelOf s c = .finite m) : ∃ e, s.elems[c]? = some e := by
  cases he : s.elems[c]? with
  | some e => exact ⟨e, rfl⟩
  | none =>
    have hnan : levelOf s c = .nan := by
      simp only [levelOf, datasetLevel, he, Option.bind]
      decide
    rw [hnan] at h
    cases h

/-- C9: on a set of cards none of which is marked `connected`, after
hover-enter on a card `h` of integer level `n`, a card `c` of integer level
`m` is marked `connected` if and only if `|m - n| = 1`; in particular `h`
itself is not marked, and for `n = 3` exactly the cards of level 2 and 4 are.
The level of a card is `parseInt` of its `data-level` attribute, which for the
decimal text of an integer `m` (of magnitude below `2 ^ 53`) is `m`. -/
theorem showSystemConnections_marks_adjacent (s : State) (h : Nat) (n : Int)
    (hclean : ∀ c ∈ s.systemCards, ¬ carries "connected" s c)
    (hh : levelOf s h = .finite n) :
    (∀ c (m : Int), m.natAbs < 2 ^ 53 →
      (s.elems[c]?).bind (·.dataLevel) = some (toString m) → levelOf s c = .finite m) ∧
    (∀ c ∈ s.systemCards, ∀ m, levelOf s c = .finite m →
      (carries "connected" (showSystemConnections h s) c ↔ |m - n| = 1)) ∧
    (h ∈ s.systemCards → ¬ carries "connected" (showSystemConnections h s) h) ∧
    (n = 3 → ∀ c ∈ s.systemCards, ∀ m, levelOf s c = .finite m →
      (carries "connected" (showSystemConnections h s) c ↔ m = 2 ∨ m = 4)) := by
  have main : ∀ c ∈ s.systemCards, ∀ m, levelOf s c = .finite m →
      (carries "connected" (showSystemConnections h s) c ↔ |m - n| = 1) := by
    intro c hc m hm
    obtain ⟨e, he⟩ := levelOf_finite_exists hm
    have hnot : "connected" ∉ e.classes := fun hmem => hclean c hc ⟨e, he, hmem⟩
    unfold carries showSystemConnections
    rw [(connect_loop (levelOf s h) s.systemCards s).2 c, he, hm, hh]
    simp only [Option.map_some', Option.some.injEq, exists_eq_left', hc, true_and, isAdjacent,
      decide_eq_true_eq]
    have habs : (m - n).natAbs = 1 ↔ |m - n| = 1 := by
      rw [Int.abs_eq_natAbs]
      omega
    rw [← habs]
    by_cases hadj : (m - n).natAbs = 1
    · simp [hadj, mem_addClass]
    · simp [hadj, hnot]
  refine ⟨?_, main, ?_, ?_⟩
  · intro c m hm hc
    simp only [levelOf, datasetLevel, hc]
    exact parseInt_toString m hm
  · intro hmem hcar
    have := (main h hmem n hh).1 hcar
    simp at this
  · intro hn c hc m hm
    rw [main c hc m hm, hn, abs_eq (by norm_num)]
    constructor
    · rintro (h1 | h1)
      · right
        omega
      · left
        omega
    · rintro (h1 | h1)
      · right
        omega
      · left
        omega

/-- Witness for C9: hovering the level-3 card (element 1) of the five-card
page marks the level-2 card (element 0) and leaves itself unmarked. -/
theorem showSystemConnections_marks_adjacent_witness :
    levelOf cardsPage 1 = .finite 3 ∧
    carries "connected" (showSystemConnections 1 cardsPage) 0 ∧
    ¬ carries "connected" (showSystemConnections 1 cardsPage) 1 ∧
    (carries "connected" (showSystemConnections 1 cardsPage) 2 ↔ (4 : Int) = 2 ∨ (4 : Int) = 4) :=
  ⟨(showSystemConnections_marks_adjacent cardsPage 1 3 (by decide) (by decide)).1 1 3
      (by decide) (by decide),
    ((showSystemConnections_marks_adjacent cardsPage 1 3 (by decide) (by decide)).2.1 0
      (by decide) 2 (by decide)).2 (by decide),
    (showSystemConnections_marks_adjacent cardsPage 1 3 (by decide) (by decide)).2.2.1
      (by decide),
    (showSystemConnections_marks_adjacent cardsPage 1 3 (by decide) (by decide)).2.2.2 rfl 2
      (by decide) 4 (by decide)⟩

theorem isAdjacent_right_not_finite (a level : JSNumber) (h : ∀ n, level ≠ .finite n) :
    isAdjacent a level = false := by
  cases a <;> cases level <;> simp [isAdjacent]
  exact absurd rfl (h _)

theorem isAdjacent_left_not_finite (a level : JSNumber) (h : ∀ n, a ≠ .finite n) :
    isAdjacent a level = false := by
  cases a <;> cases level <;> simp [isAdjacent]
  exact absurd rfl (h _)

theorem connect_loop_not_finite (level : JSNumber) (h : ∀ n, level ≠ .finite n)
    (cs : List Nat) (st : State) :
    cs.foldl (fun st c =>
      if isAdjacent (levelOf st c) level then st.update c (addClass "connected") else st)
      st = st := by
  induction cs generalizing st with
  | nil => rfl
  | cons c cs ih =>
    rw [List.foldl_cons, if_neg (by simp [isAdjacent_right_not_finite _ level h])]
    exact ih st

theorem not_finite_of_nan {x : JSNumber} (h : x = .nan) : ∀ n, x ≠ .finite n := by
  intro n hn
  rw [h] at hn
  cases hn

/-- C10 (amended): an absent level attribute parses to `NaN`; for every
hovered card whose level attribute `parseInt` does not turn into a finite
integer, hover-enter changes nothing (no card is marked `connected`, no error
is raised); and a card whose own level attribute `parseInt` does not turn into
a finite integer is left exactly as it was by a hover on any card. -/
theorem showSystemConnections_unparsed_level (s : State) :
    (∀ c, (s.elems[c]?).bind (·.dataLevel) = none → levelOf s c = .nan) ∧
    (∀ h, (∀ n, levelOf s h ≠ .finite n) → showSystemConnections h s = s) ∧
    (∀ h c, (∀ n, levelOf s c ≠ .finite n) →
      (showSystemConnections h s).elems[c]? = s.elems[c]?) := by
  refine ⟨?_, ?_, ?_⟩
  · intro c hc
    simp only [levelOf, datasetLevel, hc]
    decide
  · intro h hh
    exact connect_loop_not_finite _ hh _ _
  · intro h c hc
    unfold showSystemConnections
    rw [(connect_loop (levelOf s h) s.systemCards s).2 c]
    cases s.elems[c]? with
    | none => rfl
    | some e => simp [isAdjacent_left_not_finite _ (levelOf s h) hc]

/-- Witness for C10 (amended): on the page with malformed levels, hovering
the card without a level attribute (element 3) changes nothing, and hovering
the level-4 card leaves that card as it was. -/
theorem showSystemConnections_unparsed_level_witness :
    levelOf malformedCardsPage 3 = .nan ∧
    showSystemConnections 3 malformedCardsPage = malformedCardsPage ∧
    (showSystemConnections 1 malformedCardsPage).elems[3]? = malformedCardsPage.elems[3]? :=
  ⟨(showSystemConnections_unparsed_level malformedCardsPage).1 3 (by decide),
    (showSystemConnections_unparsed_level malformedCardsPage).2.1 3
      (not_finite_of_nan (by decide)),
    (showSystemConnections_unparsed_level malformedCardsPage).2.2 1 3
      (not_finite_of_nan (by decide))⟩

/-- C10 as stated fails: the level attribute "3abc" is not the decimal text of
an integer, yet `parseInt` reads it as 3, so hovering that card (element 0)
marks the level-4 card (element 1); and the card with attribute "2nd"
(element 2) is marked by that same hover. -/
theorem showSystemConnections_malformed_level_marks :
    datasetLevel malformedCardsPage 0 = "3abc" ∧ levelOf malformedCardsPage 0 = .finite 3 ∧
    ¬ carries "connected" malformedCardsPage 1 ∧
    carries "connected" (showSystemConnections 0 malformedCardsPage) 1 ∧
    datasetLevel malformedCardsPage 2 = "2nd" ∧
    ¬ carries "connected" malformedCardsPage 2 ∧
    carries "connected" (showSystemConnections 0 malformedCardsPage) 2 := by
  decide

/-! ### Card clicks and the details panel -/

theorem getElem?_mapFrom (f : Nat → Element → Element) (start : Nat) (l : List Element)
    (i : Nat) : (mapFrom f start l)[i]? = (l[i]?).map (f (start + i)) := by
  induction l generalizing start i with
  | nil => simp [mapFrom]
  | cons a l ih =>
    cases i with
    | zero => simp [mapFrom]
    | succ i =>
      simp only [mapFrom, List.getElem?_cons_succ, ih]
      rw [show start + 1 + i = start + (i + 1) by omega]

theorem length_mapFrom (f : Nat → Element → Element) (start : Nat) (l : List Element) :
    (mapFrom f start l).length = l.length := by
  induction l generalizing start with
  | nil => rfl
  | cons a l ih => simp [mapFrom, ih]

theorem detachIf_fields (b : Bool) (e : Element) :
    (detachIf b e).id = e.id ∧ (detachIf b e).classes = e.classes ∧
    (detachIf b e).display = e.display ∧ (detachIf b e).cursor = e.cursor ∧
    (detachIf b e).dataLevel = e.dataLevel ∧ (detachIf b e).details = e.details ∧
    ((detachIf b e).attached = true → e.attached = true) := by
  cases b
  · exact ⟨rfl, rfl, rfl, rfl, rfl, rfl, id⟩
  · exact ⟨rfl, rfl, rfl, rfl, rfl, rfl, fun h => by cases h⟩

theorem detachDescendants_getElem? (root : Nat) (s : State) (i : Nat) :
    (detachDescendants root s).elems[i]? =
      (s.elems[i]?).map fun e => detachIf (hasAncestor s.elems root s.elems.length i) e := by
  simp [detachDescendants, getElem?_mapFrom]

/-- A loop `this.systemCards.forEach(c => f(c))` for an idempotent `f`, element
by element. -/
theorem forEach_update_getElem? (f : Element → Element) (hf : ∀ e, f (f e) = f e)
    (cs : List Nat) (s : State) (i : Nat) :
    (cs.foldl (fun st c => st.update c f) s).elems[i]? =
      (s.elems[i]?).map fun e => if i ∈ cs then f e else e := by
  induction cs generalizing s with
  | nil => simp
  | cons c cs ih =>
    rw [List.foldl_cons, ih, update_elems_getElem?]
    cases s.elems[i]? with
    | none => rfl
    | some e =>
      by_cases hci : c = i
      · subst hci
        by_cases hmem : c ∈ cs <;> simp [hmem, hf]
      · have hic : ¬ i = c := fun h => hci h.symm
        simp [hci, hic]

/-- A loop over `this.systemCards` that only updates elements keeps the other
components of the page. -/
theorem forEach_update_fields (f : Element → Element) (cs : List Nat) (s : State) :
    (cs.foldl (fun st c => st.update c f) s).systemCards = s.systemCards ∧
    (cs.foldl (fun st c => st.update c f) s).currentModal = s.currentModal ∧
    (cs.foldl (fun st c => st.update c f) s).bodyOverflow = s.bodyOverflow ∧
    (cs.foldl (fun st c => st.update c f) s).timers = s.timers ∧
    (cs.foldl (fun st c => st.update c f) s).scrollRequests = s.scrollRequests ∧
    (cs.foldl (fun st c => st.update c f) s).elems.length = s.elems.length := by
  induction cs generalizing s with
  | nil => simp
  | cons c cs ih =>
    rw [List.foldl_cons]
    obtain ⟨h1, h2, h3, h4, h5, h6⟩ := ih (s.update c f)
    exact ⟨h1, h2, h3, h4, h5, by simpa [State.update] using h6⟩

/-- For a level that names an inherited member, `showLevelDetails` only makes
sure the panel exists (appending a fresh one when it does not) and then
throws. -/
theorem showLevelDetails_inherited (level : Option String) (s : State) (n : String)
    (hd : getLevelDetails (.str (level.getD "undefined")) = .inherited n) :
    showLevelDetails level s =
      { state :=
          match getElementById s "level-details" with
          | some _ => s
          | none =>
              { s with elems := s.elems ++ [newDetailsPanel] }
        threw := true } := by
  simp only [showLevelDetails, hd]

theorem showLevelDetails_record_found (level : Option String) (s : State) (d : LevelDetail)
    (p : Nat) (hd : getLevelDetails (.str (level.getD "undefined")) = .record d)
    (hf : getElementById s "level-details" = some p) :
    showLevelDetails level s =
      { state :=
          { (detachDescendants p s).update p fun e =>
              { e with
                details := some
                  { levelText := level.getD "undefined", title := d.title,
                    description := d.description, examples := d.examples } } with
            timers := s.timers ++ [{ delay := 10, callback := .addShow p }] }
        threw := false } := by
  simp only [showLevelDetails, hd, hf, Option.getD_some]
  rfl

theorem showLevelDetails_record_created (level : Option String) (s : State) (d : LevelDetail)
    (hd : getLevelDetails (.str (level.getD "undefined")) = .record d)
    (hf : getElementById s "level-details" = none) :
    showLevelDetails level s =
      { state :=
          { (detachDescendants s.elems.length
              { s with elems := s.elems ++ [newDetailsPanel] }).update
              s.elems.length fun e =>
              { e with
                details := some
                  { levelText := level.getD "undefined", title := d.title,
                    description := d.description, examples := d.examples } } with
            timers := s.timers ++ [{ delay := 10, callback := .addShow s.elems.length }] }
        threw := false } := by
  simp only [showLevelDetails, hd, hf, Option.getD_none]
  rfl

theorem getElem?_lt_length {l : List Element} {i : Nat} {e : Element} (h : l[i]? = some e) :
    i < l.length := by
  by_contra hge
  rw [List.getElem?_eq_none (by omega)] at h
  cases h

/-- What `showLevelDetails` leaves of the elements that were there before:
everything but `attached` and the rendering. -/
theorem showLevelDetails_keeps (level : Option String) (s : State) :
    (showLevelDetails level s).state.systemCards = s.systemCards ∧
    s.elems.length ≤ (showLevelDetails level s).state.elems.length ∧
    ∀ (i : Nat) (e : Element), s.elems[i]? = some e →
      ∃ e1 : Element, (showLevelDetails level s).state.elems[i]? = some e1 ∧
        e1.classes = e.classes ∧ e1.id = e.id ∧ e1.display = e.display ∧
        e1.cursor = e.cursor ∧ e1.dataLevel = e.dataLevel := by
  cases hd : getLevelDetails (.str (level.getD "undefined")) with
  | inherited n =>
    rw [showLevelDetails_inherited level s n hd]
    cases hf : getElementById s "level-details" with
    | some p => exact ⟨rfl, le_refl _, fun i e he => ⟨e, he, rfl, rfl, rfl, rfl, rfl⟩⟩
    | none =>
      refine ⟨rfl, by simp, fun i e he => ⟨e, ?_, rfl, rfl, rfl, rfl, rfl⟩⟩
      simpa [List.getElem?_append_left (getElem?_lt_length he)] using he
  | record d =>
    cases hf : getElementById s "level-details" with
    | some p =>
      rw [showLevelDetails_record_found level s d p hd hf]
      refine ⟨rfl, by simp [State.update, detachDescendants, length_mapFrom], ?_⟩
      intro i e he
      simp only [update_elems_getElem?, detachDescendants_getElem?, he,
        Option.map_some', Option.map_eq_map]
      refine ⟨_, rfl, ?_⟩
      have hfld := fun b : Bool => detachIf_fields b e
      by_cases hpi : p = i
      · simp only [hpi, if_true]
        exact ⟨(hfld _).2.1, (hfld _).1, (hfld _).2.2.1, (hfld _).2.2.2.1, (hfld _).2.2.2.2.1⟩
      · simp only [hpi, if_false]
        exact ⟨(hfld _).2.1, (hfld _).1, (hfld _).2.2.1, (hfld _).2.2.2.1, (hfld _).2.2.2.2.1⟩
    | none =>
      rw [showLevelDetails_record_created level s d hd hf]
      refine ⟨rfl, by simp [State.update, detachDescendants, length_mapFrom], ?_⟩
      intro i e he
      have hi : i < s.elems.length := getElem?_lt_length he
      have he1 : (s.elems ++ [newDetailsPanel])[i]? = some e := by
        simpa [List.getElem?_append_left hi] using he
      simp only [update_elems_getElem?, detachDescendants_getElem?, he1,
        Option.map_some', Option.map_eq_map]
      refine ⟨_, rfl, ?_⟩
      have hne : ¬ s.elems.length = i := by omega
      simp only [hne, if_false]
      obtain ⟨d1, d2, d3, d4, d5, _⟩ := detachIf_fields
        (hasAncestor (s.elems ++ [newDetailsPanel]) s.elems.length
          (s.elems ++ [newDetailsPanel]).length i) e
      exact ⟨d2, d1, d3, d4, d5⟩

/-- An element `showLevelDetails` adds to the page is the fresh panel. -/
theorem showLevelDetails_new (level : Option String) (s : State) (i : Nat) (e1 : Element)
    (hnone : s.elems[i]? = none) (h1 : (showLevelDetails level s).state.elems[i]? = some e1) :
    i = s.elems.length ∧ e1.classes = ["level-details-panel"] ∧ e1.id = "level-details" ∧
    getElementById s "level-details" = none := by
  have hge : s.elems.length ≤ i := by
    by_contra hlt
    rw [List.getElem?_eq_getElem (by omega)] at hnone
    cases hnone
  have happ : ∀ e : Element, (s.elems ++ [newDetailsPanel])[i]? = some e →
      i = s.elems.length ∧ e = newDetailsPanel := by
    intro e he
    rw [List.getElem?_append_right hge] at he
    have hi : i - s.elems.length = 0 := by
      by_contra hne
      rw [List.getElem?_eq_none (by simp; omega)] at he
      cases he
    rw [hi] at he
    simp only [List.getElem?_cons_zero, Option.some.injEq] at he
    exact ⟨by omega, he.symm⟩
  cases hd : getLevelDetails (.str (level.getD "undefined")) with
  | inherited n =>
    rw [showLevelDetails_inherited level s n hd] at h1
    cases hf : getElementById s "level-details" with
    | some p =>
      simp only [hf] at h1
      rw [hnone] at h1
      cases h1
    | none =>
      simp only [hf] at h1
      obtain ⟨h2, h3⟩ := happ e1 h1
      exact ⟨h2, by rw [h3]; rfl, by rw [h3]; rfl, rfl⟩
  | record d =>
    cases hf : getElementById s "level-details" with
    | some p =>
      rw [showLevelDetails_record_found level s d p hd hf] at h1
      simp [update_elems_getElem?, detachDescendants_getElem?, hnone] at h1
    | none =>
      rw [showLevelDetails_record_created level s d hd hf] at h1
      simp only [update_elems_getElem?, detachDescendants_getElem?, Option.map_eq_map,
        Option.map_map, Option.map_eq_some'] at h1
      obtain ⟨e, he, hee⟩ := h1
      obtain ⟨h2, h3⟩ := happ e he
      refine ⟨h2, ?_, ?_, rfl⟩
      · rw [← hee, h3]
        simp only [Function.comp]
        split
        · exact (detachIf_fields _ newDetailsPanel).2.1
        · exact (detachIf_fields _ newDetailsPanel).2.1
      · rw [← hee, h3]
        simp only [Function.comp]
        split
        · exact (detachIf_fields _ newDetailsPanel).1
        · exact (detachIf_fields _ newDetailsPanel).1

theorem highlightSystemLevel_eq (card : Nat) (s : State) :
    highlightSystemLevel card s =
      showLevelDetails
        ((((s.systemCards.foldl (fun st c => st.update c (removeClass "highlighted")) s).update
          card (addClass "highlighted")).elems[card]?).bind (·.dataLevel))
        ((s.systemCards.foldl (fun st c => st.update c (removeClass "highlighted")) s).update
          card (addClass "highlighted")) :=
  rfl

/-- The classes every element carries after `highlightSystemLevel(card)`. -/
theorem highlightSystemLevel_classes (card : Nat) (s : State) (i : Nat) (e : Element)
    (he : s.elems[i]? = some e) :
    ∃ e1 : Element, (highlightSystemLevel card s).state.elems[i]? = some e1 ∧
      e1.classes =
        (if card = i then
          addClass "highlighted"
            (if i ∈ s.systemCards then removeClass "highlighted" e else e)
        else if i ∈ s.systemCards then removeClass "highlighted" e else e).classes := by
  rw [highlightSystemLevel_eq]
  have h2 : ((s.systemCards.foldl (fun st c => st.update c (removeClass "highlighted")) s).update
      card (addClass "highlighted")).elems[i]? =
      some (if card = i then
          addClass "highlighted"
            (if i ∈ s.systemCards then removeClass "highlighted" e else e)
        else if i ∈ s.systemCards then removeClass "highlighted" e else e) := by
    rw [update_elems_getElem?,
      forEach_update_getElem? _ (removeClass_idem "highlighted"), he]
    rfl
  obtain ⟨_, _, hkeep⟩ := showLevelDetails_keeps
    ((((s.systemCards.foldl (fun st c => st.update c (removeClass "highlighted")) s).update
      card (addClass "highlighted")).elems[card]?).bind (·.dataLevel))
    ((s.systemCards.foldl (fun st c => st.update c (removeClass "highlighted")) s).update
      card (addClass "highlighted"))
  obtain ⟨e1, h3, hcl, _⟩ := hkeep i _ h2
  exact ⟨e1, h3, hcl⟩

theorem highlightSystemLevel_keeps (card : Nat) (s : State) :
    (highlightSystemLevel card s).state.systemCards = s.systemCards ∧
    s.elems.length ≤ (highlightSystemLevel card s).state.elems.length := by
  rw [highlightSystemLevel_eq]
  obtain ⟨h1, h2, _⟩ := showLevelDetails_keeps
    ((((s.systemCards.foldl (fun st c => st.update c (removeClass "highlighted")) s).update
      card (addClass "highlighted")).elems[card]?).bind (·.dataLevel))
    ((s.systemCards.foldl (fun st c => st.update c (removeClass "highlighted")) s).update
      card (addClass "highlighted"))
  obtain ⟨g1, _, _, _, _, g6⟩ := forEach_update_fields (removeClass "highlighted")
    s.systemCards s
  refine ⟨h1.trans (by simpa [State.update] using g1), ?_⟩
  have : ((s.systemCards.foldl (fun st c => st.update c (removeClass "highlighted")) s).update
      card (addClass "highlighted")).elems.length = s.elems.length := by
    simpa [State.update] using g6
  omega

/-- After one click on `card`, that card alone among the system cards is
highlighted. -/
theorem highlightSystemLevel_only (card : Nat) (s : State) (hlt : card < s.elems.length) :
    carries "highlighted" (highlightSystemLevel card s).state card ∧
    ∀ c ∈ s.systemCards, c ≠ card →
      ¬ carries "highlighted" (highlightSystemLevel card s).state c := by
  constructor
  · obtain ⟨e, he⟩ : ∃ e, s.elems[card]? = some e := ⟨s.elems[card], by simp [hlt]⟩
    obtain ⟨e1, h1, hcl⟩ := highlightSystemLevel_classes card s card e he
    refine ⟨e1, h1, ?_⟩
    rw [hcl, if_pos rfl, mem_addClass]
    exact Or.inr rfl
  · intro c hc hne hcar
    obtain ⟨e1, h1, hmem⟩ := hcar
    cases he : s.elems[c]? with
    | some e =>
      obtain ⟨e2, h2, hcl⟩ := highlightSystemLevel_classes card s c e he
      rw [h1] at h2
      cases h2
      rw [hcl, if_neg (fun h => hne h.symm), if_pos hc, mem_removeClass] at hmem
      exact hmem.2 rfl
    | none =>
      have hnew : ∀ (level : Option String) (t : State) (x : Element), t.elems[c]? = none →
          (showLevelDetails level t).state.elems[c]? = some x →
          x.classes = ["level-details-panel"] :=
        fun level t x hn hx => (showLevelDetails_new level t c x hn hx).2.1
      rw [highlightSystemLevel_eq] at h1
      have hn2 : ((s.systemCards.foldl (fun st c => st.update c (removeClass "highlighted"))
          s).update card (addClass "highlighted")).elems[c]? = none := by
        rw [update_elems_getElem?,
          forEach_update_getElem? _ (removeClass_idem "highlighted"), he]
        rfl
      have := hnew _ _ e1 hn2 h1
      rw [this] at hmem
      simp at hmem

/-- C11: for every set of system cards and every card `c`, after a click on
`c` (`highlightSystemLevel`) `c` carries `highlighted` and no other system card
does, whatever cards were highlighted before; so after any sequence of clicks
that ends with a click on `c`, `c` is the one highlighted card. -/
theorem highlightSystemLevel_exclusive (s : State) (c : Nat) (hlt : c < s.elems.length) :
    (carries "highlighted" (highlightSystemLevel c s).state c ∧
      ∀ x ∈ s.systemCards, x ≠ c → ¬ carries "highlighted" (highlightSystemLevel c s).state x) ∧
    ∀ clicks : List Nat,
      carries "highlighted"
        (highlightSystemLevel c
          (clicks.foldl (fun st x => (highlightSystemLevel x st).state) s)).state c ∧
      ∀ x ∈ s.systemCards, x ≠ c →
        ¬ carries "highlighted"
          (highlightSystemLevel c
            (clicks.foldl (fun st x => (highlightSystemLevel x st).state) s)).state x := by
  refine ⟨highlightSystemLevel_only c s hlt, ?_⟩
  intro clicks
  have hinv : ∀ (l : List Nat) (t : State), t.systemCards = s.systemCards →
      s.elems.length ≤ t.elems.length →
      (l.foldl (fun st x => (highlightSystemLevel x st).state) t).systemCards = s.systemCards ∧
      s.elems.length ≤ (l.foldl (fun st x => (highlightSystemLevel x st).state) t).elems.length := by
    intro l
    induction l with
    | nil => exact fun t h1 h2 => ⟨h1, h2⟩
    | cons a l ih =>
      intro t h1 h2
      rw [List.foldl_cons]
      obtain ⟨k1, k2⟩ := highlightSystemLevel_keeps a t
      exact ih _ (k1.trans h1) (by omega)
  obtain ⟨h1, h2⟩ := hinv clicks s rfl (le_refl _)
  have := highlightSystemLevel_only c
    (clicks.foldl (fun st x => (highlightSystemLevel x st).state) s) (by omega)
  rw [h1] at this
  exact this

/-- Witness for C11: on the five-card page, a click on card 0 and then a
click on card 2 leaves card 2 highlighted and card 0 not. -/
theorem highlightSystemLevel_exclusive_witness :
    2 < cardsPage.elems.length ∧
    carries "highlighted"
      (highlightSystemLevel 2 (highlightSystemLevel 0 cardsPage).state).state 2 ∧
    ¬ carries "highlighted"
      (highlightSystemLevel 2 (highlightSystemLevel 0 cardsPage).state).state 0 :=
  ⟨by decide, ((highlightSystemLevel_exclusive cardsPage 2 (by decide)).2 [0]).1,
    ((highlightSystemLevel_exclusive cardsPage 2 (by decide)).2 [0]).2 0 (by decide)
      (by decide)⟩

theorem countP_le_of_getElem? (p : Element → Bool) (l1 l : List Element)
    (hlen : l1.length = l.length)
    (h : ∀ (i : Nat) (e1 : Element), l1[i]? = some e1 → p e1 = true →
      ∃ e : Element, l[i]? = some e ∧ p e = true) :
    l1.countP p ≤ l.countP p := by
  induction l generalizing l1 with
  | nil =>
    cases l1 with
    | nil => simp
    | cons a t => simp at hlen
  | cons b t ih =>
    cases l1 with
    | nil => simp
    | cons a t1 =>
      have htl : t1.countP p ≤ t.countP p := by
        apply ih t1 (by simpa using hlen)
        intro i e1 he1 hp
        obtain ⟨e, he, hpe⟩ := h (i + 1) e1 (by simpa using he1) hp
        exact ⟨e, by simpa using he, hpe⟩
      by_cases hpa : p a = true
      · obtain ⟨e, he, hpe⟩ := h 0 a (by simp) hpa
        simp only [List.getElem?_cons_zero, Option.some.injEq] at he
        subst he
        simp only [List.countP_cons, hpa, hpe, if_true]
        omega
      · simp only [List.countP_cons, hpa, Bool.false_eq_true, if_false]
        split <;> omega

theorem detailsPanelCount_of_none (s : State)
    (h : getElementById s "level-details" = none) : detailsPanelCount s = 0 := by
  have h1 : firstIndex (fun e => e.attached && decide (e.id = "level-details")) s.elems
      = none := by
    simpa [getElementById] using h
  have h2 := firstIndex_eq_none.1 h1
  unfold detailsPanelCount
  rw [List.countP_eq_zero]
  intro e he
  simpa [isDetailsPanel] using h2 e he

/-- Detaching elements and rewriting element contents cannot add a details
panel. -/
theorem detailsPanelCount_le (s t : State) (hlen : t.elems.length = s.elems.length)
    (h : ∀ (i : Nat) (e1 : Element), t.elems[i]? = some e1 →
      ∃ e : Element, s.elems[i]? = some e ∧ e1.id = e.id ∧ (e1.attached = true → e.attached = true)) :
    detailsPanelCount t ≤ detailsPanelCount s := by
  apply countP_le_of_getElem? _ _ _ hlen
  intro i e1 he1 hp
  obtain ⟨e, he, hid, hatt⟩ := h i e1 he1
  refine ⟨e, he, ?_⟩
  simp only [isDetailsPanel, Bool.and_eq_true, decide_eq_true_eq] at hp ⊢
  exact ⟨hatt hp.1, by rw [← hid]; exact hp.2⟩

theorem removeElement_getElem? (el : Nat) (s : State) (i : Nat) :
    (removeElement el s).elems[i]? =
      (s.elems[i]?).map fun e =>
        detachIf (decide (el = i) || hasAncestor s.elems el s.elems.length i) e := by
  simp only [removeElement, update_elems_getElem?, detachDescendants_getElem?]
  cases s.elems[i]? with
  | none => rfl
  | some e =>
    by_cases h1 : el = i
    · subst h1
      cases hasAncestor s.elems el s.elems.length el <;> simp [detachIf]
    · cases hasAncestor s.elems el s.elems.length i <;> simp [h1, detachIf]

theorem pressDetailsClose_count (panel : Nat) (s : State) :
    detailsPanelCount (pressDetailsClose panel s) ≤ detailsPanelCount s := by
  unfold pressDetailsClose
  split
  · exact le_refl _
  · apply detailsPanelCount_le
    · simp [removeElement, State.update, detachDescendants, length_mapFrom]
    · intro i e1 he1
      rw [removeElement_getElem?] at he1
      cases he : s.elems[i]? with
      | none => simp [he] at he1
      | some e =>
        rw [he] at he1
        simp only [Option.map_some', Option.some.injEq] at he1
        refine ⟨e, rfl, ?_⟩
        rw [← he1]
        exact ⟨(detachIf_fields _ e).1, (detachIf_fields _ e).2.2.2.2.2.2⟩

theorem removeClass_fields (c : String) (e : Element) :
    (removeClass c e).id = e.id ∧ (removeClass c e).attached = e.attached ∧
    (removeClass c e).dataLevel = e.dataLevel ∧ (removeClass c e).details = e.details :=
  ⟨rfl, rfl, rfl, rfl⟩

theorem addClass_fields (c : String) (e : Element) :
    (addClass c e).id = e.id ∧ (addClass c e).attached = e.attached ∧
    (addClass c e).dataLevel = e.dataLevel ∧ (addClass c e).details = e.details := by
  unfold addClass
  split <;> exact ⟨rfl, rfl, rfl, rfl⟩

/-- The page after the highlighting steps of `highlightSystemLevel`, before
`showLevelDetails` runs: only classes have changed. -/
theorem highlighted_getElem? (card : Nat) (s : State) (i : Nat) :
    ((s.systemCards.foldl (fun st c => st.update c (removeClass "highlighted")) s).update
      card (addClass "highlighted")).elems[i]? =
      (s.elems[i]?).map fun e =>
        if card = i then
          addClass "highlighted" (if i ∈ s.systemCards then removeClass "highlighted" e else e)
        else if i ∈ s.systemCards then removeClass "highlighted" e else e := by
  rw [update_elems_getElem?, forEach_update_getElem? _ (removeClass_idem "highlighted")]
  cases s.elems[i]? <;> rfl

theorem highlighted_fields (card : Nat) (s : State) (i : Nat) (e1 : Element)
    (h : ((s.systemCards.foldl (fun st c => st.update c (removeClass "highlighted")) s).update
      card (addClass "highlighted")).elems[i]? = some e1) :
    ∃ e : Element, s.elems[i]? = some e ∧ e1.id = e.id ∧ e1.attached = e.attached ∧
      e1.dataLevel = e.dataLevel ∧ e1.details = e.details := by
  rw [highlighted_getElem?] at h
  cases he : s.elems[i]? with
  | none => simp [he] at h
  | some e =>
    rw [he] at h
    simp only [Option.map_some', Option.some.injEq] at h
    refine ⟨e, rfl, ?_⟩
    rw [← h]
    obtain ⟨r1, r2, r3, r4⟩ := removeClass_fields "highlighted" e
    by_cases hc : card = i <;> by_cases hm : i ∈ s.systemCards
    · obtain ⟨a1, a2, a3, a4⟩ := addClass_fields "highlighted" (removeClass "highlighted" e)
      simp only [hc, hm, if_true]
      exact ⟨a1.trans r1, a2.trans r2, a3.trans r3, a4.trans r4⟩
    · simp only [hc, hm, if_true, if_false]
      exact addClass_fields "highlighted" e
    · simp only [hc, hm, if_true, if_false]
      exact ⟨r1, r2, r3, r4⟩
    · simp [hc, hm]

theorem highlighted_length (card : Nat) (s : State) :
    ((s.systemCards.foldl (fun st c => st.update c (removeClass "highlighted")) s).update
      card (addClass "highlighted")).elems.length = s.elems.length := by
  have := (forEach_update_fields (removeClass "highlighted") s.systemCards s).2.2.2.2.2
  simpa [State.update] using this

theorem highlighted_datasetLevel (card : Nat) (s : State) :
    ((((s.systemCards.foldl (fun st c => st.update c (removeClass "highlighted")) s).update
      card (addClass "highlighted")).elems[card]?).bind (·.dataLevel)).getD "undefined" =
      datasetLevel s card := by
  unfold datasetLevel
  cases h : ((s.systemCards.foldl (fun st c => st.update c (removeClass "highlighted")) s).update
      card (addClass "highlighted")).elems[card]? with
  | none =>
    rw [highlighted_getElem?] at h
    cases he : s.elems[card]? with
    | none => rfl
    | some e => simp [he] at h
  | some e1 =>
    obtain ⟨e, he, _, _, hl, _⟩ := highlighted_fields card s card e1 h
    simp only [Option.some_bind, he, hl]
    cases e.dataLevel <;> rfl

theorem highlighted_getElementById (card : Nat) (s : State) (id : String) :
    getElementById ((s.systemCards.foldl (fun st c => st.update c (removeClass "highlighted"))
      s).update card (addClass "highlighted")) id = getElementById s id := by
  unfold getElementById
  split
  · rfl
  · have key : ∀ (l1 l : List Element), l1.length = l.length →
        (∀ (i : Nat) (e1 e : Element), l1[i]? = some e1 → l[i]? = some e →
          e1.id = e.id ∧ e1.attached = e.attached) →
        firstIndex (fun e => e.attached && decide (e.id = id)) l1 =
          firstIndex (fun e => e.attached && decide (e.id = id)) l := by
      intro l1 l
      induction l generalizing l1 with
      | nil =>
        intro hlen _
        cases l1 with
        | nil => rfl
        | cons a t => simp at hlen
      | cons b t ih =>
        intro hlen h
        cases l1 with
        | nil => simp at hlen
        | cons a t1 =>
          obtain ⟨h1, h2⟩ := h 0 a b (by simp) (by simp)
          have := ih t1 (by simpa using hlen)
            (fun i e1 e he1 he => h (i + 1) e1 e (by simpa using he1) (by simpa using he))
          simp only [firstIndex, h1, h2, this]
    apply key _ _ (highlighted_length card s)
    intro i e1 e he1 he
    obtain ⟨e2, he2, h1, h2, _⟩ := highlighted_fields card s i e1 he1
    rw [he] at he2
    cases he2
    exact ⟨h1, h2⟩

/-- Writing a rendering into the panel `p` after emptying it, element by
element. -/
theorem rendered_getElem? (p : Nat) (v : DetailsView) (s : State) (i : Nat) :
    ((detachDescendants p s).update p fun e => { e with details := some v }).elems[i]? =
      (s.elems[i]?).map fun e =>
        if p = i then
          { detachIf (hasAncestor s.elems p s.elems.length i) e with details := some v }
        else detachIf (hasAncestor s.elems p s.elems.length i) e := by
  rw [update_elems_getElem?, detachDescendants_getElem?]
  cases s.elems[i]? <;> rfl

theorem rendered_count (p : Nat) (v : DetailsView) (s : State) :
    detailsPanelCount ((detachDescendants p s).update p fun e => { e with details := some v })
      ≤ detailsPanelCount s := by
  apply detailsPanelCount_le
  · simp [State.update, detachDescendants, length_mapFrom]
  · intro i e1 he1
    rw [rendered_getElem?] at he1
    cases he : s.elems[i]? with
    | none => simp [he] at he1
    | some e =>
      rw [he] at he1
      simp only [Option.map_some', Option.some.injEq] at he1
      refine ⟨e, rfl, ?_⟩
      rw [← he1]
      have hfld := fun b : Bool => detachIf_fields b e
      by_cases hp : p = i
      · simp only [hp, if_true]
        exact ⟨(hfld _).1, (hfld _).2.2.2.2.2.2⟩
      · simp only [hp, if_false]
        exact ⟨(hfld _).1, (hfld _).2.2.2.2.2.2⟩

theorem appended_count (s : State) (h : getElementById s "level-details" = none) :
    detailsPanelCount { s with elems := s.elems ++ [newDetailsPanel] } = 1 := by
  have h0 := detailsPanelCount_of_none s h
  unfold detailsPanelCount at h0 ⊢
  rw [List.countP_append, h0]
  rfl

theorem showLevelDetails_count (level : Option String) (s : State)
    (h : detailsPanelCount s ≤ 1) : detailsPanelCount (showLevelDetails level s).state ≤ 1 := by
  cases hd : getLevelDetails (.str (level.getD "undefined")) with
  | inherited n =>
    rw [showLevelDetails_inherited level s n hd]
    cases hf : getElementById s "level-details" with
    | some p => exact h
    | none => exact le_of_eq (appended_count s hf)
  | record d =>
    cases hf : getElementById s "level-details" with
    | some p =>
      rw [showLevelDetails_record_found level s d p hd hf]
      exact le_trans (rendered_count p _ s) h
    | none =>
      rw [showLevelDetails_record_created level s d hd hf]
      exact le_trans (rendered_count s.elems.length _ _) (le_of_eq (appended_count s hf))

theorem highlightSystemLevel_count (card : Nat) (s : State) (h : detailsPanelCount s ≤ 1) :
    detailsPanelCount (highlightSystemLevel card s).state ≤ 1 := by
  rw [highlightSystemLevel_eq]
  apply showLevelDetails_count
  refine le_trans ?_ h
  apply detailsPanelCount_le _ _ (highlighted_length card s)
  intro i e1 he1
  obtain ⟨e, he, h1, h2, _⟩ := highlighted_fields card s i e1 he1
  exact ⟨e, he, h1, fun ha => by rw [← h2]; exact ha⟩

theorem runDetails_count (events : List DetailsEvent) (s : State)
    (h : detailsPanelCount s ≤ 1) : detailsPanelCount (runDetails events s) ≤ 1 := by
  unfold runDetails
  induction events generalizing s with
  | nil => exact h
  | cons ev events ih =>
    rw [List.foldl_cons]
    apply ih
    cases ev with
    | click card => exact highlightSystemLevel_count card s h
    | close panel => exact le_trans (pressDetailsClose_count panel s) h

/-- C12 (amended): a card click creates the level-details panel only when the
document holds no element with id `level-details` (the first click, or the
first click after the Close button removed the panel), and otherwise reuses
the one in the document without adding an element; either way the panel then
holds the rendering of the record `getLevelDetails` returns for the clicked
card's level (title, description, examples in their listed order); and after
any sequence of card clicks and presses of the Close button the document holds
at most one details panel. -/
theorem showLevelDetails_shared_panel (s : State) :
    (∀ (c : Nat) (d : LevelDetail) (p : Nat),
      getLevelDetails (.str (datasetLevel s c)) = .record d →
      getElementById s "level-details" = some p →
      (highlightSystemLevel c s).threw = false ∧
      (highlightSystemLevel c s).state.elems.length = s.elems.length ∧
      ((highlightSystemLevel c s).state.elems[p]?).bind (·.details) =
        some { levelText := datasetLevel s c, title := d.title,
               description := d.description, examples := d.examples }) ∧
    (∀ (c : Nat) (d : LevelDetail),
      getLevelDetails (.str (datasetLevel s c)) = .record d →
      getElementById s "level-details" = none →
      (highlightSystemLevel c s).threw = false ∧
      (highlightSystemLevel c s).state.elems.length = s.elems.length + 1 ∧
      ∃ e : Element, (highlightSystemLevel c s).state.elems[s.elems.length]? = some e ∧
        e.id = "level-details" ∧
        e.details = some { levelText := datasetLevel s c, title := d.title,
                           description := d.description, examples := d.examples }) ∧
    (∀ events : List DetailsEvent,
      detailsPanelCount s ≤ 1 → detailsPanelCount (runDetails events s) ≤ 1) := by
  refine ⟨?_, ?_, fun events h => runDetails_count events s h⟩
  · intro c d p hd hf
    have hd2 := hd
    rw [← highlighted_datasetLevel c s] at hd2
    have hf2 := hf
    rw [← highlighted_getElementById c s] at hf2
    rw [highlightSystemLevel_eq, showLevelDetails_record_found _ _ d p hd2 hf2]
    refine ⟨rfl, ?_, ?_⟩
    · simpa [State.update, detachDescendants, length_mapFrom] using highlighted_length c s
    · have hp : p < s.elems.length := getElementById_lt hf
      obtain ⟨e, he⟩ : ∃ e, ((s.systemCards.foldl
          (fun st c => st.update c (removeClass "highlighted")) s).update c
          (addClass "highlighted")).elems[p]? = some e :=
        ⟨_, List.getElem?_eq_getElem (by rw [highlighted_length]; exact hp)⟩
      show ((((detachDescendants p _).update p _).elems[p]?).bind _) = _
      rw [rendered_getElem?, he, highlighted_datasetLevel]
      simp
  · intro c d hd hf
    have hd2 := hd
    rw [← highlighted_datasetLevel c s] at hd2
    have hf2 := hf
    rw [← highlighted_getElementById c s] at hf2
    rw [highlightSystemLevel_eq, showLevelDetails_record_created _ _ d hd2 hf2]
    refine ⟨rfl, ?_, ?_⟩
    · have := highlighted_length c s
      simp only [State.update, detachDescendants, length_mapFrom, List.length_modify,
        List.length_append, List.length_singleton] at this ⊢
      omega
    · show ∃ e : Element, (((detachDescendants _ _).update _ _).elems[s.elems.length]?) = some e ∧ _
      rw [highlighted_length c s, rendered_getElem?, highlighted_datasetLevel]
      have hnew : ({ (s.systemCards.foldl (fun st c => st.update c (removeClass "highlighted"))
          s).update c (addClass "highlighted") with
          elems := ((s.systemCards.foldl (fun st c => st.update c (removeClass "highlighted"))
            s).update c (addClass "highlighted")).elems ++ [newDetailsPanel] } :
          State).elems[s.elems.length]? = some newDetailsPanel := by
        have := getElem?_append_length ((s.systemCards.foldl
          (fun st c => st.update c (removeClass "highlighted")) s).update c
          (addClass "highlighted")).elems newDetailsPanel []
        rw [highlighted_length c s] at this
        exact this
      rw [hnew]
      simp only [Option.map_some', if_true]
      exact ⟨_, rfl, (detachIf_fields _ newDetailsPanel).1, rfl⟩

/-- Witness for C12 (amended): on the five-card page the first click creates
the panel as element 5, and after click, Close, click the document holds one
details panel. -/
theorem showLevelDetails_shared_panel_witness :
    getElementById cardsPage "level-details" = none ∧
    detailsPanelCount cardsPage ≤ 1 ∧
    (highlightSystemLevel 0 cardsPage).threw = false ∧
    (highlightSystemLevel 0 cardsPage).state.elems.length = cardsPage.elems.length + 1 ∧
    detailsPanelCount (runDetails [.click 0, .close 5, .click 1] cardsPage) ≤ 1 :=
  ⟨by decide, by decide,
    ((showLevelDetails_shared_panel cardsPage).2.1 0 _ rfl (by decide)).1,
    ((showLevelDetails_shared_panel cardsPage).2.1 0 _ rfl (by decide)).2.1,
    (showLevelDetails_shared_panel cardsPage).2.2 [.click 0, .close 5, .click 1] (by decide)⟩

/-- C12 as stated fails: on the five-card page the first click creates the
panel as element 5; the Close button removes it from the document; the next
click does not reuse it but creates a second panel, element 6, while element 5
stays out of the document. -/
theorem details_panel_created_again :
    getElementById (runDetails [.click 0] cardsPage) "level-details" = some 5 ∧
    getElementById (runDetails [.click 0, .close 5] cardsPage) "level-details" = none ∧
    getElementById (runDetails [.click 0, .close 5, .click 1] cardsPage) "level-details"
      = some 6 ∧
    ((runDetails [.click 0, .close 5, .click 1] cardsPage).elems[5]?).map
      (fun e => (e.id, e.attached)) = some ("level-details", false) ∧
    (runDetails [.click 0, .close 5, .click 1] cardsPage).elems.length = 7 := by
  decide

/-! ### Modal content lookup, keyboard and scrolling -/

/-- An id that is neither a registry key nor the name of a member inherited
from `Object.prototype` has no content, and `toggleModal` on it, when no node
has that id, does nothing. -/
theorem getModalContent_absent (id : String) (h1 : id ∉ modalContentKeys)
    (h2 : id ∉ objectPrototypeKeys) :
    getModalContent id = none ∧
    ∀ s, getElementById s id = none → toggleModal id s = s := by
  have h : getModalContent id = none := by simp [getModalContent, h1, h2]
  exact ⟨h, fun s hs => by simp [toggleModal, hs, createModal, h]⟩

/-- C13 (the code at the failing input): "constructor" is not one of the six
reference modal ids, yet `getModalContent("constructor")` is not absent (it
is the member inherited from `Object.prototype`), and `toggleModal` on it,
with no node of that id, creates a node, displays it, makes it current and
locks scroll. -/
theorem getModalContent_inherited_member :
    "constructor" ∉ modalContentKeys ∧
    getModalContent "constructor" = some (.inherited "constructor") ∧
    getElementById (initialState []) "constructor" = none ∧
    getElementById (toggleModal "constructor" (initialState [])) "constructor" = some 0 ∧
    isDisplayed (toggleModal "constructor" (initialState [])) 0 ∧
    (toggleModal "constructor" (initialState [])).currentModal = some 0 ∧
    (toggleModal "constructor" (initialState [])).bodyOverflow = "hidden" := by
  decide

/-- C14: the global keydown handler has exactly the effect of `closeModal()`
when the key is Escape and a current instance is present (the `show` class is
taken from the current instance and one delayed hide is scheduled), and leaves
the whole state unchanged in every other case. -/
theorem keydown_escape_closes (key : String) (s : State) :
    (key = "Escape" → s.currentModal ≠ none →
      keydown key s = closeModal s ∧
      ∃ m, s.currentModal = some m ∧
        keydown key s =
          { s.update m (removeClass "show") with
            timers := s.timers ++ [{ delay := 300, callback := .hideCurrent }] }) ∧
    (¬ (key = "Escape" ∧ s.currentModal ≠ none) → keydown key s = s) := by
  constructor
  · intro hk hc
    have h1 : keydown key s = closeModal s := by simp [keydown, hk, hc]
    refine ⟨h1, ?_⟩
    cases hm : s.currentModal with
    | none => exact absurd hm hc
    | some m =>
      refine ⟨m, rfl, ?_⟩
      rw [h1]
      simp [closeModal, hm, State.update]
  · intro h
    simp [keydown, h]

/-- Witness for C14: Escape on the page with the assessment modal open, and
another key on the same page. -/
theorem keydown_escape_closes_witness :
    keydown "Escape" assessmentOpen = closeModal assessmentOpen ∧
    keydown "Enter" assessmentOpen = assessmentOpen ∧
    keydown "Escape" (initialState []) = initialState [] :=
  ⟨((keydown_escape_closes "Escape" assessmentOpen).1 rfl (by decide)).1,
    (keydown_escape_closes "Enter" assessmentOpen).2 (by decide),
    (keydown_escape_closes "Escape" (initialState [])).2 (by decide)⟩

/-- C15: for every id that resolves to no element of the document, the empty
id of a bare "#" anchor included, `scrollToSection(id)` requests no scroll,
changes no state and raises no error. -/
theorem scrollToSection_missing_target (layout : Layout) (s : State) :
    (∀ id, getElementById s id = none →
      scrollToSection layout id s = { state := s, threw := false }) ∧
    scrollToSection layout "" s = { state := s, threw := false } ∧
    anchorClick layout "#" s = { state := s, threw := false } := by
  have h : ∀ id, getElementById s id = none →
      scrollToSection layout id s = { state := s, threw := false } := by
    intro id hid
    simp [scrollToSection, hid]
  have h0 : getElementById s "" = none := by simp [getElementById]
  have ha : anchorClick layout "#" s = scrollToSection layout "" s := rfl
  exact ⟨h, h "" h0, by rw [ha]; exact h "" h0⟩

/-- Witness for C15: the id "pricing" on the page with the navigation bar. -/
theorem scrollToSection_missing_target_witness :
    getElementById navPage "pricing" = none ∧
    scrollToSection navLayout "pricing" navPage = { state := navPage, threw := false } ∧
    (scrollToSection navLayout "pricing" navPage).state.scrollRequests = [] :=
  ⟨by decide, (scrollToSection_missing_target navLayout navPage).1 "pricing" (by decide),
    by rw [(scrollToSection_missing_target navLayout navPage).1 "pricing" (by decide)]; rfl⟩

/-- C16: on a page with a navigation bar, for every id that resolves to an
element, `scrollToSection(id)` requests exactly one smooth scroll, whose
vertical target is the top offset of the element minus the rendered height of
the navigation bar minus 20; it changes nothing else and raises no error. -/
theorem scrollToSection_requests_scroll (layout : Layout) (s : State) (id : String)
    (target nav : Nat) (ht : getElementById s id = some target) (hn : queryNav s = some nav) :
    scrollToSection layout id s =
      { state :=
          { s with
            scrollRequests := s.scrollRequests ++
              [{ top := layout.offsetTop target - layout.offsetHeight nav - 20,
                 behavior := "smooth" }] }
        threw := false } := by
  simp [scrollToSection, ht, hn]

/-- Witness for C16: the section "framework" at offset 700 under a bar of
height 64 gives one smooth scroll to 616. -/
theorem scrollToSection_requests_scroll_witness :
    getElementById navPage "framework" = some 1 ∧ queryNav navPage = some 0 ∧
    (scrollToSection navLayout "framework" navPage).threw = false ∧
    (scrollToSection navLayout "framework" navPage).state.scrollRequests =
      [{ top := 616, behavior := "smooth" }] :=
  ⟨by decide, by decide,
    by rw [scrollToSection_requests_scroll navLayout navPage "framework" 1 0 (by decide)
      (by decide)],
    by rw [scrollToSection_requests_scroll navLayout navPage "framework" 1 0 (by decide)
      (by decide)]; rfl⟩

/-- Without a `.nav` element the call throws once the target is found. -/
theorem scrollToSection_without_nav (layout : Layout) (s : State) (id : String) (target : Nat)
    (ht : getElementById s id = some target) (hn : queryNav s = none) :
    scrollToSection layout id s = { state := s, threw := true } := by
  simp [scrollToSection, ht, hn]

/-! ### Tab clicks and resize -/

/-- The click handler wired by `setupWorkflowTabs` throws on every tab button
and changes nothing. -/
theorem tabClick_throws (toLowerCase : String → String) (s : State) (tab : Nat) (e : Element)
    (he : s.elems[tab]? = some e) :
    tabClick toLowerCase tab s = { state := s, threw := true } := by
  have hm : ¬ ("showWorkflow" ∈ instanceMembers ∨ "showWorkflow" ∈ objectPrototypeKeys) := by
    decide
  simp only [tabClick, he, hm, if_false]

/-- C17 (the code at the failing input): on the page with tabs "Overview" and
"Quick Start", the click handler of the tab "Quick Start" (element 1) throws
and leaves the page as it was, with "Overview" still the active tab, whereas
`showWorkflow` on the derived key "quick-start" activates tab 1 and panel 3. -/
theorem tabClick_has_no_effect :
    "showWorkflow" ∉ instanceMembers ∧
    tabKey asciiToLowerCase "Quick Start" = "quick-start" ∧
    (tabClick asciiToLowerCase 1 workflowPage).threw = true ∧
    (tabClick asciiToLowerCase 1 workflowPage).state = workflowPage ∧
    ¬ carries "active" (tabClick asciiToLowerCase 1 workflowPage).state 1 ∧
    ¬ carries "active" (tabClick asciiToLowerCase 1 workflowPage).state 3 ∧
    carries "active" (showWorkflow asciiToLowerCase "quick-start" workflowPage) 1 ∧
    carries "active" (showWorkflow asciiToLowerCase "quick-start" workflowPage) 3 := by
  decide

theorem setCursor_idem (v : String) (e : Element) :
    ({ ({ e with cursor := v } : Element) with cursor := v } : Element) = { e with cursor := v } :=
  rfl

/-- C18: for every viewport width `w`, after a resize event every system
card's cursor hint is "pointer" if `w < 768` and "default" otherwise and
nothing else about the card changes; the elements that are not system cards,
the list of system cards, the current modal, the scroll lock, the pending
timers and the scroll requests are unchanged. -/
theorem handleResize_cursor_only (w : Int) (s : State) :
    (∀ c ∈ s.systemCards, ∀ e : Element, s.elems[c]? = some e →
      (handleResize w s).elems[c]? =
        some { e with cursor := if w < 768 then "pointer" else "default" }) ∧
    (∀ i, i ∉ s.systemCards → (handleResize w s).elems[i]? = s.elems[i]?) ∧
    (handleResize w s).elems.length = s.elems.length ∧
    (handleResize w s).systemCards = s.systemCards ∧
    (handleResize w s).currentModal = s.currentModal ∧
    (handleResize w s).bodyOverflow = s.bodyOverflow ∧
    (handleResize w s).timers = s.timers ∧
    (handleResize w s).scrollRequests = s.scrollRequests := by
  have hdef : handleResize w s =
      s.systemCards.foldl
        (fun st card => st.update card fun e =>
          { e with cursor := if w < 768 then "pointer" else "default" }) s := by
    simp [handleResize]
  rw [hdef]
  obtain ⟨h1, h2, h3, h4, h5, h6⟩ := forEach_update_fields
    (fun e : Element => { e with cursor := if w < 768 then "pointer" else "default" })
    s.systemCards s
  have hget := forEach_update_getElem?
    (fun e : Element => { e with cursor := if w < 768 then "pointer" else "default" })
    (fun _ => rfl) s.systemCards s
  refine ⟨?_, ?_, h6, h1, h2, h3, h4, h5⟩
  · intro c hc e he
    rw [hget, he]
    simp [hc]
  · intro i hi
    rw [hget]
    cases s.elems[i]? <;> simp [hi]

/-- Witness for C18: width 767 is mobile, width 768 is not. -/
theorem handleResize_cursor_only_witness :
    ((handleResize 767 cardsPage).elems[0]?).map (·.cursor) = some "pointer" ∧
    ((handleResize 768 cardsPage).elems[0]?).map (·.cursor) = some "default" :=
  ⟨by rw [(handleResize_cursor_only 767 cardsPage).1 0 (by decide) _ rfl]; rfl,
    by rw [(handleResize_cursor_only 768 cardsPage).1 0 (by decide) _ rfl]; rfl⟩

/-! ### Races of the delayed hide -/

/-- The delayed hide with no current instance throws and changes nothing. -/
theorem runCallback_hideCurrent_none (s : State) (h : s.currentModal = none) :
    runCallback s .hideCurrent = { state := s, threw := true } := by
  simp [runCallback, h]

/-- C19: from every state with a current instance `m`, two `closeModal()`
calls with no timer firing in between schedule two delayed hide callbacks;
when both fire, the first hides `m`, clears the current reference and unlocks
scroll, and the second finds the current reference empty, throws, and changes
nothing. -/
theorem double_close_not_guarded (s : State) (m : Nat) (hcur : s.currentModal = some m)
    (hm : m < s.elems.length) :
    (closeModal (closeModal s)).timers =
      s.timers ++ [{ delay := 300, callback := .hideCurrent },
        { delay := 300, callback := .hideCurrent }] ∧
    ∃ f1, fireTimer s.timers.length (closeModal (closeModal s)) = some f1 ∧
      f1.threw = false ∧ (f1.state.elems[m]?).map (·.display) = some "none" ∧
      f1.state.currentModal = none ∧ f1.state.bodyOverflow = "auto" ∧
      f1.state.timers = s.timers ++ [{ delay := 300, callback := .hideCurrent }] ∧
      ∃ f2, fireTimer s.timers.length f1.state = some f2 ∧
        f2.threw = true ∧ f2.state = { f1.state with timers := s.timers } := by
  have hc1 : (closeModal s).currentModal = some m := by
    rw [closeModal_currentModal]
    exact hcur
  have ht1 := closeModal_timers_of_current s m hcur
  have ht2 := closeModal_timers_of_current (closeModal s) m hc1
  have hts : (closeModal (closeModal s)).timers =
      s.timers ++ [{ delay := 300, callback := .hideCurrent },
        { delay := 300, callback := .hideCurrent }] := by
    rw [ht2, ht1]
    simp
  have hc2 : (closeModal (closeModal s)).currentModal = some m := by
    rw [closeModal_currentModal]
    exact hc1
  have hlen : (closeModal (closeModal s)).elems.length = s.elems.length := by
    rw [closeModal_length, closeModal_length]
  refine ⟨hts, ?_⟩
  have hfire : fireTimer s.timers.length (closeModal (closeModal s)) =
      some (runCallback
        { closeModal (closeModal s) with
          timers := s.timers ++ [{ delay := 300, callback := .hideCurrent }] }
        .hideCurrent) := by
    unfold fireTimer
    rw [hts, getElem?_append_length]
    simp [List.eraseIdx_append_of_length_le]
  obtain ⟨h1, h2, h3, h4⟩ := runCallback_hideCurrent
    { closeModal (closeModal s) with
      timers := s.timers ++ [{ delay := 300, callback := .hideCurrent }] } m
    (by simpa [hlen] using hm) hc2
  have htm : (runCallback
      { closeModal (closeModal s) with
        timers := s.timers ++ [{ delay := 300, callback := .hideCurrent }] }
      .hideCurrent).state.timers =
      s.timers ++ [{ delay := 300, callback := .hideCurrent }] := by
    simp [runCallback, hc2, State.update]
  obtain ⟨F1, hF1⟩ : ∃ F1 : Fired, F1 = runCallback
      { closeModal (closeModal s) with
        timers := s.timers ++ [{ delay := 300, callback := .hideCurrent }] }
      .hideCurrent := ⟨_, rfl⟩
  rw [← hF1] at hfire h1 h2 h3 h4 htm
  refine ⟨F1, hfire, h1, h2, h3, h4, htm, ?_⟩
  have hlast := fireTimer_last F1.state s.timers { delay := 300, callback := .hideCurrent } htm
  have hidx : F1.state.timers.length - 1 = s.timers.length := by
    rw [htm]
    simp
  have hrun := runCallback_hideCurrent_none { F1.state with timers := s.timers } h3
  refine ⟨{ state := { F1.state with timers := s.timers }, threw := true }, ?_, rfl, rfl⟩
  rw [← hidx, hlast]
  exact congrArg some hrun

/-- Witness for C19: closing the open assessment modal twice. -/
theorem double_close_not_guarded_witness :
    assessmentOpen.currentModal = some 0 ∧ 0 < assessmentOpen.elems.length ∧
    (closeModal (closeModal assessmentOpen)).timers =
      assessmentOpen.timers ++ [{ delay := 300, callback := .hideCurrent },
        { delay := 300, callback := .hideCurrent }] :=
  ⟨by decide, by decide, (double_close_not_guarded assessmentOpen 0 (by decide) (by decide)).1⟩

/-- C20: a pending delayed hide is not cancelled by a later open: for modals
`A ≠ B`, if `closeModal()` is requested while `A` is current and displayed and
`openModal(B)` happens before the delayed hide fires, then the delayed hide
acts on `B`: `B` is hidden, the current reference is cleared and scroll is
unlocked, while `A` is left displayed. -/
theorem pending_hide_acts_on_new_modal (s : State) (A B : Nat) (hAB : A ≠ B)
    (hcur : s.currentModal = some A) (hA : isDisplayed s A) (hB : B < s.elems.length) :
    (openModal B (closeModal s)).timers =
      s.timers ++ [{ delay := 300, callback := .hideCurrent },
        { delay := 10, callback := .addShow B }] ∧
    ∃ f, fireTimer s.timers.length (openModal B (closeModal s)) = some f ∧
      f.threw = false ∧ (f.state.elems[B]?).map (·.display) = some "none" ∧
      ¬ isDisplayed f.state B ∧ f.state.currentModal = none ∧
      f.state.bodyOverflow = "auto" ∧ isDisplayed f.state A := by
  have ht1 := closeModal_timers_of_current s A hcur
  have hts : (openModal B (closeModal s)).timers =
      s.timers ++ [{ delay := 300, callback := .hideCurrent },
        { delay := 10, callback := .addShow B }] := by
    simp [openModal, State.update, ht1]
  refine ⟨hts, ?_⟩
  have hfire : fireTimer s.timers.length (openModal B (closeModal s)) =
      some (runCallback
        { openModal B (closeModal s) with
          timers := s.timers ++ [{ delay := 10, callback := .addShow B }] }
        .hideCurrent) := by
    unfold fireTimer
    rw [hts, getElem?_append_length]
    simp [List.eraseIdx_append_of_length_le]
  have hlen : (openModal B (closeModal s)).elems.length = s.elems.length := by
    simp [openModal, State.update, closeModal_length]
  obtain ⟨h1, h2, h3, h4⟩ := runCallback_hideCurrent
    { openModal B (closeModal s) with
      timers := s.timers ++ [{ delay := 10, callback := .addShow B }] } B
    (by simpa [hlen] using hB) rfl
  refine ⟨_, hfire, h1, h2, ?_, h3, h4, ?_⟩
  · rw [isDisplayed_iff_display, h2]
    decide
  · rw [isDisplayed_iff_display, runCallback_keeps_display _ _ A
      (by simp [openModal, Ne.symm hAB])]
    have hopen : ((openModal B (closeModal s)).elems[A]?).map (·.display) =
        ((closeModal s).elems[A]?).map (·.display) := by
      simp [openModal, update_elems_getElem?, Ne.symm hAB]
    show ((openModal B (closeModal s)).elems[A]?).map (·.display) = some "block"
    rw [hopen, closeModal_display]
    exact (isDisplayed_iff_display s A).1 hA

/-- Witness for C20: on the page where the paradigm modal (element 7) is
current and displayed, `closeModal()` followed by `openModal` of the
assessment modal (element 0) before the hide fires. -/
theorem pending_hide_acts_on_new_modal_witness :
    (7 : Nat) ≠ 0 ∧ stackedModals.currentModal = some 7 ∧ isDisplayed stackedModals 7 ∧
    ∃ f, fireTimer stackedModals.timers.length (openModal 0 (closeModal stackedModals))
        = some f ∧
      f.threw = false ∧ (f.state.elems[0]?).map (·.display) = some "none" ∧
      ¬ isDisplayed f.state 0 ∧ f.state.currentModal = none ∧
      f.state.bodyOverflow = "auto" ∧ isDisplayed f.state 7 :=
  ⟨by decide, by decide, by decide,
    (pending_hide_acts_on_new_modal stackedModals 7 0 (by decide) (by decide) (by decide)
      (by decide)).2⟩

/-! ### The overlay invariant -/

/-- The invariant passes to any state with the same current instance, the same
overflow, and every displayed element still displayed. -/
theorem modalInvariant_transfer {s t : State} (hc : t.currentModal = s.currentModal)
    (ho : t.bodyOverflow = s.bodyOverflow) (hd : ∀ n, isDisplayed s n → isDisplayed t n)
    (h : modalInvariant s) : modalInvariant t := by
  refine ⟨?_, ?_⟩
  · rw [hc, ho]
    exact h.1
  · intro m hm
    rw [hc] at hm
    exact hd m (h.2 m hm)

theorem modalInvariant_openModal (s : State) (m : Nat) (hm : m < s.elems.length) :
    modalInvariant (openModal m s) := by
  refine ⟨⟨fun _ => rfl, fun _ hc => by cases hc⟩, ?_⟩
  intro n hn
  have hnm : m = n := by
    have : some m = some n := hn
    exact Option.some.inj this
  subst hnm
  exact isDisplayed_update_display s m hm

theorem closeModal_bodyOverflow (s : State) : (closeModal s).bodyOverflow = s.bodyOverflow := by
  unfold closeModal
  cases h : s.currentModal <;> simp [State.update]

theorem modalInvariant_closeModal {s : State} (h : modalInvariant s) :
    modalInvariant (closeModal s) := by
  refine modalInvariant_transfer (closeModal_currentModal s) (closeModal_bodyOverflow s) ?_ h
  intro n hn
  rw [isDisplayed_iff_display] at hn ⊢
  rw [closeModal_display]
  exact hn

theorem modalInvariant_createModal {s : State} (modalId : String) (h : modalInvariant s) :
    modalInvariant (createModal modalId s) := by
  unfold createModal
  cases getModalContent modalId with
  | none => exact h
  | some c =>
    apply modalInvariant_openModal
    simp

theorem modalInvariant_toggleModal {s : State} (modalId : String) (h : modalInvariant s) :
    modalInvariant (toggleModal modalId s) := by
  unfold toggleModal
  cases hg : getElementById s modalId with
  | none => exact modalInvariant_createModal modalId h
  | some modal =>
    simp only
    split
    · exact modalInvariant_closeModal h
    · exact modalInvariant_openModal s modal (getElementById_lt hg)

theorem modalInvariant_keydown {s : State} (key : String) (h : modalInvariant s) :
    modalInvariant (keydown key s) := by
  unfold keydown
  split
  · exact modalInvariant_closeModal h
  · exact h

theorem showAIDemo_fields (demoType : String) (s : State) :
    (showAIDemo demoType s).currentModal = s.currentModal ∧
    (showAIDemo demoType s).bodyOverflow = s.bodyOverflow ∧
    ∃ r, (showAIDemo demoType s).elems = s.elems ++ r := by
  unfold showAIDemo
  cases getDemo demoType with
  | none => exact ⟨rfl, rfl, [], by simp⟩
  | some d => exact ⟨rfl, rfl, _, rfl⟩

theorem modalInvariant_showAIDemo {s : State} (demoType : String) (h : modalInvariant s) :
    modalInvariant (showAIDemo demoType s) := by
  obtain ⟨hc, ho, r, hr⟩ := showAIDemo_fields demoType s
  refine modalInvariant_transfer hc ho ?_ h
  rintro n ⟨e, he, hd⟩
  refine ⟨e, ?_, hd⟩
  rw [hr, List.getElem?_append_left (getElem?_lt_length he)]
  exact he

/-- An update that leaves `style.display` alone leaves every element's
display as it was. -/
theorem update_keeps_display (s : State) (i : Nat) (f : Element → Element)
    (hf : ∀ e, (f e).display = e.display) (n : Nat) :
    ((s.update i f).elems[n]?).map (·.display) = (s.elems[n]?).map (·.display) := by
  rw [update_elems_getElem?]
  cases s.elems[n]? with
  | none => rfl
  | some e =>
    by_cases h : i = n
    · simp [h, hf]
    · simp [h]

theorem modalInvariant_runCallback {s : State} (cb : Callback) (h : modalInvariant s) :
    modalInvariant (runCallback s cb).state := by
  cases cb with
  | addShow el =>
    refine @modalInvariant_transfer s _ rfl rfl ?_ h
    intro n hn
    rw [isDisplayed_iff_display] at hn ⊢
    rw [← hn]
    exact update_keeps_display s el (addClass "show") (fun e => by unfold addClass; split <;> rfl) n
  | hideCurrent =>
    cases hc : s.currentModal with
    | none =>
      rw [runCallback_hideCurrent_none s hc]
      exact h
    | some m =>
      simp only [runCallback, hc]
      exact ⟨⟨fun hne => absurd rfl hne, fun hb => by simp at hb⟩, fun n hn => by cases hn⟩

theorem modalInvariant_modalStep {s : State} (a : ModalAction) (h : modalInvariant s) :
    modalInvariant (modalStep s a) := by
  cases a with
  | openModal modal =>
    simp only [modalStep]
    split
    · exact modalInvariant_openModal s modal (by assumption)
    · exact h
  | closeModal => exact modalInvariant_closeModal h
  | toggleModal modalId => exact modalInvariant_toggleModal modalId h
  | keydown key => exact modalInvariant_keydown key h
  | showAIDemo demoType => exact modalInvariant_showAIDemo demoType h
  | fireTimer i =>
    simp only [modalStep, fireTimer]
    cases ht : s.timers[i]? with
    | none => exact h
    | some t =>
      simp only
      exact modalInvariant_runCallback t.callback
        (@modalInvariant_transfer s _ rfl rfl (fun _ hn => hn) h)

theorem modalInvariant_runModalActions (actions : List ModalAction) {s : State}
    (h : modalInvariant s) : modalInvariant (runModalActions actions s) := by
  unfold runModalActions
  induction actions generalizing s with
  | nil => exact h
  | cons a rest ih => exact ih (modalInvariant_modalStep a h)

/-- C21: from every initial state (no current instance, page scroll not
locked), after any sequence of `openModal`, `closeModal`, `toggleModal`,
`keydown`, `showAIDemo` events and timer expiries, the current-instance
reference is non-empty if and only if page scroll is locked
(`body.style.overflow` is "hidden"), and whenever it is non-empty the current
instance is displayed. -/
theorem current_iff_scroll_locked (actions : List ModalAction) (s0 : State)
    (hcur : s0.currentModal = none) (hscroll : s0.bodyOverflow ≠ "hidden") :
    ((runModalActions actions s0).currentModal ≠ none ↔
      (runModalActions actions s0).bodyOverflow = "hidden") ∧
    ∀ m, (runModalActions actions s0).currentModal = some m →
      isDisplayed (runModalActions actions s0) m :=
  modalInvariant_runModalActions actions
    ⟨⟨fun h => absurd hcur h, fun h => absurd h hscroll⟩, fun m hm => by
      rw [hcur] at hm
      cases hm⟩

theorem current_iff_scroll_locked_witness :
    (initialState []).currentModal = none ∧ (initialState []).bodyOverflow ≠ "hidden" ∧
    (runModalActions overlaySession (initialState [])).currentModal = some 8 ∧
    (runModalActions overlaySession (initialState [])).bodyOverflow = "hidden" ∧
    isDisplayed (runModalActions overlaySession (initialState [])) 8 ∧
    (runModalActions (overlaySession.take 7) (initialState [])).currentModal = none ∧
    (runModalActions (overlaySession.take 7) (initialState [])).bodyOverflow = "auto" :=
  ⟨by decide, by decide, by decide,
    (current_iff_scroll_locked overlaySession (initialState []) (by decide) (by decide)).1.1
      (by decide),
    (current_iff_scroll_locked overlaySession (initialState []) (by decide) (by decide)).2 8
      (by decide),
    by decide, by decide⟩

/-! ### Click and hover on one card -/

/-- On the decimal text of a level from 1 to 12 the two paths agree: the hover
path parses it to that level, and the click path finds that level's record. -/
theorem getLevelDetails_decimal_text (n : Int) (h1 : 1 ≤ n) (h12 : n ≤ 12) :
    parseInt (toString n) = .finite n ∧
    getLevelDetails (.str (toString n)) = getLevelDetails (.num n) ∧
    getLevelDetails (.num n) ≠ .record unknownLevel := by
  refine ⟨parseInt_toString n (by omega), ?_⟩
  interval_cases n <;> exact ⟨by decide, by decide⟩

/-- C22: the click path and the hover path do not agree on every level
attribute.  On a card whose attribute is "03" the hover path
(`showSystemConnections`) parses level 3 and marks the cards of levels 2 and
4, while the click path (`highlightSystemLevel`) looks the raw text up, misses
the record of level 3 and renders the fallback "Level 03: Unknown".  The same
holds of " 3", "+3", "3abc", "3.5" and "0x3". -/
theorem click_and_hover_disagree_on_level :
    datasetLevel paddedCardsPage 1 = "03" ∧
    levelOf paddedCardsPage 1 = .finite 3 ∧
    carries "connected" (showSystemConnections 1 paddedCardsPage) 0 ∧
    carries "connected" (showSystemConnections 1 paddedCardsPage) 2 ∧
    getLevelDetails (.num 3) ≠ .record unknownLevel ∧
    getLevelDetails (.str "03") = .record unknownLevel ∧
    (((highlightSystemLevel 1 paddedCardsPage).state.elems[3]?).bind (·.details)).map
      (fun d => (d.levelText, d.title, d.description)) =
        some ("03", "Unknown", "No details available") ∧
    ∀ s ∈ [" 3", "+3", "3abc", "3.5", "0x3"],
      parseInt s = .finite 3 ∧ getLevelDetails (.str s) = .record unknownLevel := by
  decide

end DocsAsCode
